import Mathlib

/-!
Verification of the reconciliation engine of `docker_starter.py`.

The Python module drives a container runtime and a registry endpoint from a
declared set of container configurations.  We embed the per-container worker
(`_StarterWorker`), the configuration check (`DockerStarter._check`) and the
helper functions (`_docker_remote_sha256`, `_docker_images_sha256`, ...) as
computable Lean functions.

External collaborators (the `docker` CLI and the registry) are modelled by an
oracle holding one queue of scripted responses per collaborator call; each
embedded call consumes the head of its queue (an exhausted queue yields a fixed
default response, which is just one more scripted response, so quantifying over
all oracles covers all collaborator behaviours).  Every execution returns an
`Except PyExc` value (Python exceptions escaping the worker are `.error`),
the remaining oracle, and the trace of external calls it performed, in order.
-/

namespace DockerStarter

/-- Kinds of Python exceptions the embedded code can raise. -/
inductive PyExc
  | runtimeError
  | valueError
  | attributeError
deriving DecidableEq, Repr

deriving instance DecidableEq for Except

/-- Result of one `subprocess.run(['docker', ...])` invocation:
return code and decoded stdout. -/
structure DockerRes where
  returncode : Nat
  stdout : String
deriving DecidableEq, Repr

/-- Outcome of one remote-digest lookup: the observable behaviour of the auth
endpoint and of the registry manifest endpoint, as consumed by
`_docker_remote_sha256`.  `authOk`/`regOk` are false when the HTTP request
itself raises; `token`, `contentDigest` and `etag` are `none` when the
corresponding JSON field / response header is absent. -/
structure RegistryOutcome where
  authOk : Bool
  authStatus : Nat
  jsonOk : Bool
  token : Option String
  regOk : Bool
  regStatus : Nat
  headersPresent : Bool
  contentDigest : Option String
  etag : Option String
deriving DecidableEq, Repr

/-- One external call performed by the engine.  Mutating calls record the
success flag returned by the collaborator. -/
inductive Event
  | imagesSha256
  | imagesId
  | repoIds
  | remoteSha (ref : String)
  | pull (ref : String) (ok : Bool)
  | build (ref : String) (file : String) (path : String) (ok : Bool)
  | startC (name : String) (ok : Bool)
  | stopC (name : String) (ok : Bool)
  | rmC (name : String) (ok : Bool)
  | rmiI (target : String) (ok : Bool)
  | runC (args : List String) (ok : Bool)
  | makedirs (path : String)
  | rmtree (path : String)
deriving DecidableEq, Repr

/-- True for calls that mutate runtime state (anything but the read-only
enumerations and the registry digest lookup). -/
def Event.isMut : Event → Bool
  | .pull _ _ => true
  | .build _ _ _ _ => true
  | .startC _ _ => true
  | .stopC _ _ => true
  | .rmC _ _ => true
  | .rmiI _ _ => true
  | .runC _ _ => true
  | .makedirs _ => true
  | .rmtree _ => true
  | _ => false

/-- True for image-deletion calls. -/
def Event.isRmi : Event → Bool
  | .rmiI _ _ => true
  | _ => false

/-- True for container-creation (`docker run`) calls. -/
def Event.isRun : Event → Bool
  | .runC _ _ => true
  | _ => false

/-- True for container-removal (`docker rm`) calls. -/
def Event.isRm : Event → Bool
  | .rmC _ _ => true
  | _ => false

/-- True for recursive data-tree deletions. -/
def Event.isRmtree : Event → Bool
  | .rmtree _ => true
  | _ => false

/-- True for a successful image fetch (pull or build that returned success). -/
def Event.isFetchOk : Event → Bool
  | .pull _ true => true
  | .build _ _ _ true => true
  | _ => false

/-- One declared container configuration (a `cfg` dict that has passed
`_config_check`: the mandatory keys are present and all present keys are
well-typed).  Optional keys absent from the dict are the default values. -/
structure Cfg where
  name : String
  image : String
  data_path : String
  dockerfile : String := ""
  docker_path : String := ""
  p : List (String × String) := []
  v : List (String × String) := []
  e : List (String × String) := []
  any : List (String × String × String) := []
  restart : Option String := none
deriving DecidableEq, Repr

/-- The parsed command line (`DockerStarter._cli_parse`): exactly one action
flag, plus the modifiers. -/
structure Cli where
  start : Bool := false
  stop : Bool := false
  update : Bool := false
  upgrade : Bool := false
  remove : Bool := false
  purge : Bool := false
  e : Option (List String) := none
  b : Bool := false
  t : Bool := false
  f : Bool := false
deriving DecidableEq, Repr

/-- Scripted collaborator responses: one queue per external call kind,
consumed in order. -/
structure Oracle where
  imagesShaQ : List DockerRes := []
  imagesIdQ : List DockerRes := []
  repoIdQ : List DockerRes := []
  remoteQ : List RegistryOutcome := []
  stopQ : List Bool := []
  startQ : List Bool := []
  rmQ : List Bool := []
  rmiQ : List Bool := []
  pullQ : List Bool := []
  buildQ : List Bool := []
  runQ : List Bool := []
deriving DecidableEq, Repr

/-- Default response of an exhausted docker queue: a failing invocation. -/
def dfltRes : DockerRes := ⟨1, ""⟩

/-- Default response of an exhausted registry queue: a transport failure. -/
def dfltRemote : RegistryOutcome := ⟨false, 0, false, none, false, 0, false, none, none⟩

/-! ## Python string helpers -/

/-- Python `s.strip(c)` for a single character: remove leading and trailing
occurrences of `c`. -/
def pyStrip (c : Char) (s : String) : String :=
  ⟨((s.data.dropWhile (· = c)).reverse.dropWhile (· = c)).reverse⟩

/-- Split a character list at every occurrence of `c`, keeping empty pieces,
with the piece collected so far as accumulator (Python `str.split(c)`
semantics: the empty string yields one empty piece). -/
def splitOnCharAux (c : Char) : List Char → List Char → List (List Char)
  | [], acc => [acc.reverse]
  | x :: xs, acc =>
    if x = c then acc.reverse :: splitOnCharAux c xs []
    else splitOnCharAux c xs (x :: acc)

/-- Python `s.split(c)` for a one-character separator. -/
def splitOnChar (c : Char) (s : String) : List String :=
  (splitOnCharAux c s.data []).map (fun l => ⟨l⟩)

/-- Join pieces back with a one-character separator (inverse of
`splitOnChar` on its output). -/
def joinSep (c : Char) : List String → String
  | [] => ""
  | [x] => x
  | x :: xs => x ++ ⟨[c]⟩ ++ joinSep c xs

/-- Python `s.rsplit(c, 1)`: split at the last occurrence of `c`.
Returns `none` when `c` does not occur (so that tuple unpacking of the
result raises `ValueError` in the callers). -/
def rsplit1 (c : Char) (s : String) : Option (String × String) :=
  match (splitOnChar c s).reverse with
  | [] => none
  | [_] => none
  | last :: revInit => some (joinSep c revInit.reverse, last)

/-- Python `stdout.decode().strip(newline).rsplit(newline)` as used by the
listing helpers: the lines of the stripped output. -/
def pyLines (s : String) : List String :=
  splitOnChar '\n' (pyStrip '\n' s)

/-- Parse the output of `docker images ... --format "A B"`: each line is
rsplit at its last space into a key/value pair; a line without a space makes
the tuple unpacking raise `ValueError`.  The pairs are kept in line order
(later lines overwrite earlier keys on lookup, like the Python dict). -/
def parseImages (stdout : String) : Except PyExc (List (String × String)) :=
  go (pyLines stdout)
where
  go : List String → Except PyExc (List (String × String))
    | [] => .ok []
    | l :: rest =>
      match rsplit1 ' ' l with
      | none => .error .valueError
      | some kv =>
        match go rest with
        | .error e => .error e
        | .ok tl => .ok (kv :: tl)

/-- Python `dict.get(k)` on an insertion-ordered association list where later
bindings overwrite earlier ones: the last matching value. -/
def pyDictGet (l : List (String × String)) (k : String) : Option String :=
  ((l.filter (fun kv => kv.1 = k)).getLast?).map (fun kv => kv.2)

/-- Python `k in dict`. -/
def pyDictContains (l : List (String × String)) (k : String) : Bool :=
  l.any (fun kv => kv.1 = k)

/-- Python `a or b` on optional strings, where `none` and the empty string
are falsy. -/
def pyOrStr : Option String → Option String → Option String
  | some s, b => if s = "" then b else some s
  | none, b => b

/-- Python `os.path.join(a, b)` restricted to the shapes the engine uses:
an absolute `b` replaces `a`, otherwise the two are joined with a slash. -/
def osPathJoin (a b : String) : String :=
  if b.data.head? = some '/' then b
  else if a = "" then b
  else if a.data.getLast? = some '/' then a ++ b
  else a ++ "/" ++ b

/-! ## The worker monad

A computation consumes oracle queues, may raise a Python exception, and
records the trace of external calls it performed. -/

/-- Worker computations: oracle in, result (or escaped exception), remaining
oracle and emitted call trace out. -/
def WM (α : Type) : Type := Oracle → Except PyExc α × Oracle × List Event

/-- Monadic return. -/
def WM.pure (a : α) : WM α := fun q => (.ok a, q, [])

/-- Monadic bind: sequence two computations, concatenating their traces;
an exception in the first skips the second. -/
def WM.bind (x : WM α) (f : α → WM β) : WM β := fun q =>
  match x q with
  | (.ok a, q1, d1) =>
    match f a q1 with
    | (r, q2, d2) => (r, q2, d1 ++ d2)
  | (.error e, q1, d1) => (.error e, q1, d1)

instance : Monad WM where
  pure := WM.pure
  bind := WM.bind

/-- Raise a Python exception. -/
def throwW (e : PyExc) : WM α := fun q => (.error e, q, [])

/-- Lift a pure `Except` value into the monad. -/
def ofExcept : Except PyExc α → WM α
  | .ok a => WM.pure a
  | .error e => throwW e

/-- Record one external call. -/
def emit (e : Event) : WM Unit := fun q => (.ok (), q, [e])

/-- Consume the next scripted `docker images --digests` response. -/
def takeImagesSha : WM DockerRes := fun q =>
  (.ok (q.imagesShaQ.headD dfltRes), { q with imagesShaQ := q.imagesShaQ.tail }, [])

/-- Consume the next scripted `docker images --format ID-per-ref` response. -/
def takeImagesId : WM DockerRes := fun q =>
  (.ok (q.imagesIdQ.headD dfltRes), { q with imagesIdQ := q.imagesIdQ.tail }, [])

/-- Consume the next scripted `docker images --format ID` response. -/
def takeRepoId : WM DockerRes := fun q =>
  (.ok (q.repoIdQ.headD dfltRes), { q with repoIdQ := q.repoIdQ.tail }, [])

/-- Consume the next scripted registry outcome. -/
def takeRemote : WM RegistryOutcome := fun q =>
  (.ok (q.remoteQ.headD dfltRemote), { q with remoteQ := q.remoteQ.tail }, [])

/-- Consume the next scripted `docker stop` result. -/
def takeStop : WM Bool := fun q =>
  (.ok (q.stopQ.headD false), { q with stopQ := q.stopQ.tail }, [])

/-- Consume the next scripted `docker start` result. -/
def takeStart : WM Bool := fun q =>
  (.ok (q.startQ.headD false), { q with startQ := q.startQ.tail }, [])

/-- Consume the next scripted `docker rm` result. -/
def takeRm : WM Bool := fun q =>
  (.ok (q.rmQ.headD false), { q with rmQ := q.rmQ.tail }, [])

/-- Consume the next scripted `docker rmi` result. -/
def takeRmi : WM Bool := fun q =>
  (.ok (q.rmiQ.headD false), { q with rmiQ := q.rmiQ.tail }, [])

/-- Consume the next scripted `docker pull` result. -/
def takePull : WM Bool := fun q =>
  (.ok (q.pullQ.headD false), { q with pullQ := q.pullQ.tail }, [])

/-- Consume the next scripted `docker build` result. -/
def takeBuild : WM Bool := fun q =>
  (.ok (q.buildQ.headD false), { q with buildQ := q.buildQ.tail }, [])

/-- Consume the next scripted `docker run` result. -/
def takeRun : WM Bool := fun q =>
  (.ok (q.runQ.headD false), { q with runQ := q.runQ.tail }, [])

/-- Result component of a computation on a given oracle. -/
def resOf (x : WM α) (q : Oracle) : Except PyExc α := (x q).1

/-- Trace component of a computation on a given oracle. -/
def traceOf (x : WM α) (q : Oracle) : List Event := (x q).2.2

/-! ## Embedded collaborator helpers (module-level functions of the source) -/

/-- Embeds `_docker_images_sha256`: run the digest listing (fatal, so a
non-zero return code raises `RuntimeError`) and parse reference/digest pairs. -/
def docker_images_sha256 : WM (List (String × String)) := do
  emit .imagesSha256
  let res ← takeImagesSha
  if res.returncode ≠ 0 then throwW .runtimeError
  else ofExcept (parseImages res.stdout)

/-- Embeds `_docker_images_id`: run the ID listing (fatal) and parse
reference/ID pairs. -/
def docker_images_id : WM (List (String × String)) := do
  emit .imagesId
  let res ← takeImagesId
  if res.returncode ≠ 0 then throwW .runtimeError
  else ofExcept (parseImages res.stdout)

/-- Embeds `_docker_repo_id`: run the all-image-ID listing (fatal); the result
is the set of output lines. -/
def docker_repo_id : WM (List String) := do
  emit .repoIds
  let res ← takeRepoId
  if res.returncode ≠ 0 then throwW .runtimeError
  else WM.pure (pyLines res.stdout)

/-- Embeds `_docker_stop`. -/
def docker_stop (name : String) : WM Bool := do
  let r ← takeStop
  emit (.stopC name r)
  WM.pure r

/-- Embeds `_docker_start`. -/
def docker_start (name : String) : WM Bool := do
  let r ← takeStart
  emit (.startC name r)
  WM.pure r

/-- Embeds `_docker_rm`. -/
def docker_rm (name : String) : WM Bool := do
  let r ← takeRm
  emit (.rmC name r)
  WM.pure r

/-- Embeds `_docker_rmi`. -/
def docker_rmi (target : String) : WM Bool := do
  let r ← takeRmi
  emit (.rmiI target r)
  WM.pure r

/-- Embeds `_docker_pull`. -/
def docker_pull (ref : String) : WM Bool := do
  let r ← takePull
  emit (.pull ref r)
  WM.pure r

/-- Embeds `_docker_build`. -/
def docker_build (ref file path : String) : WM Bool := do
  let r ← takeBuild
  emit (.build ref file path r)
  WM.pure r

/-- Embeds `_docker_run`. -/
def docker_run (args : List String) : WM Bool := do
  let r ← takeRun
  emit (.runC args r)
  WM.pure r

/-- Pure core of `_docker_remote_sha256` after the auth/manifest exchange:
how the function turns one registry outcome into a digest, a `None`
(modelled `.ok none`), or an escaped exception.  Mirrors the source line by
line: every handled failure prints and returns `None`; a missing digest
header (`Docker-Content-Digest` falsy and `Etag` absent) prints and then
evaluates `sha256.strip` on `None`, raising `AttributeError`. -/
def remote_sha_of (o : RegistryOutcome) : Except PyExc (Option String) :=
  if !o.authOk then .ok none
  else if o.authStatus ≠ 200 then .ok none
  else if !o.jsonOk then .ok none
  else if (match o.token with | none => true | some t => t = "") then .ok none
  else if !o.regOk then .ok none
  else if o.regStatus ≠ 200 then .ok none
  else if !o.headersPresent then .ok none
  else
    match pyOrStr o.contentDigest o.etag with
    | none => .error .attributeError
    | some s => .ok (some (pyStrip '"' s))

/-- Embeds `_docker_remote_sha256`: split the reference at its last colon
(`ValueError` when there is none, before any network call), then perform the
token exchange and manifest HEAD request. -/
def docker_remote_sha256 (rep_tag : String) : WM (Option String) :=
  match rsplit1 ':' rep_tag with
  | none => throwW .valueError
  | some _ => do
    emit (.remoteSha rep_tag)
    let o ← takeRemote
    ofExcept (remote_sha_of o)

/-! ## Embedded worker methods (`_StarterWorker`) -/

/-- Embeds `_StarterWorker._stop`: stop the container when it is in the
snapshot; report failure of that single call; a missing container is
informational and the method still returns `True`. -/
def worker_stop (cfg : Cfg) (containers : List String) : WM Bool := do
  if containers.contains cfg.name then
    let ok ← docker_stop cfg.name
    if ok then WM.pure true else WM.pure false
  else WM.pure true

/-- Embeds `_StarterWorker._pull`: build when `-b` is set, else pull. -/
def worker_pull (cfg : Cfg) (cli : Cli) : WM Bool :=
  if cli.b then docker_build cfg.image cfg.dockerfile cfg.docker_path
  else docker_pull cfg.image

/-- First statement of `_StarterWorker._update`:
`old_sha = old_sha or _docker_images_sha256().get(image)` — the listing is
queried exactly when the passed value is falsy (absent or empty). -/
def worker_update_resolve (cfg : Cfg) (old_sha : Option String) : WM (Option String) :=
  match old_sha with
  | some s =>
    if s = "" then do
      let m ← docker_images_sha256
      WM.pure (pyDictGet m cfg.image)
    else WM.pure (some s)
  | none => do
    let m ← docker_images_sha256
    WM.pure (pyDictGet m cfg.image)

/-- Rest of `_StarterWorker._update` once the local digest is resolved:
treat a missing local image as non-blocking `True`, fetch the remote digest,
report fetch failure as `False`, and compare digests as opaque strings. -/
def worker_update_core (cfg : Cfg) (old : Option String) : WM Bool :=
  match old with
  | none => WM.pure true
  | some o => do
    let nw ← docker_remote_sha256 cfg.image
    match nw with
    | none => WM.pure false
    | some n => if o = n then WM.pure false else WM.pure true

/-- Embeds `_StarterWorker._update` as the sequence of the two statements
above. -/
def worker_update (cfg : Cfg) (old_sha : Option String) : WM Bool := do
  let old ← worker_update_resolve cfg old_sha
  worker_update_core cfg old

/-- Embeds `_StarterWorker._allow_source_change`: provenance is `hub` unless
the current digest is the `<none>` sentinel; the requested provenance is
`local build` exactly when `-b` is set; a provenance change is allowed only
under `-f`. -/
def worker_allow_source_change (cli : Cli) (old_sha : String) : Bool :=
  let old := if old_sha ≠ "<none>" then "hub" else "local build"
  let nw := if !cli.b then "hub" else "local build"
  if old ≠ nw && !cli.f then false else true

/-- Embeds the command assembly of `_StarterWorker._run`: detached flag, port
publications, bind mounts (host side joined under `data_path`), declared env
entries then CLI env overrides, raw extra arguments (pair when the separator
is a space, single concatenated token otherwise), restart policy, container
name, image reference. -/
def buildRunCmd (cfg : Cfg) (cli : Cli) : List String :=
  ["-d"]
  ++ (cfg.p.map (fun kv => ["-p", kv.1 ++ ":" ++ kv.2])).flatten
  ++ (cfg.v.map (fun kv => ["-v", osPathJoin cfg.data_path kv.1 ++ ":" ++ kv.2])).flatten
  ++ (cfg.e.map (fun kv => ["-e", kv.1 ++ "=" ++ kv.2])).flatten
  ++ (match cli.e with
      | none => []
      | some l => (l.map (fun env => ["-e", env])).flatten)
  ++ (cfg.any.map (fun el =>
        if el.2.1 = " " then [el.1, el.2.2] else [el.1 ++ el.2.1 ++ el.2.2])).flatten
  ++ ["--restart=" ++ cfg.restart.getD "always"]
  ++ ["--name", cfg.name]
  ++ [cfg.image]

/-- The `if makedir: os.makedirs(self._cfg['data_path'], exist_ok=True)` step
of `_StarterWorker._run`: when at least one volume was declared, create the
base `data_path` directory — and only it, not the per-volume subpaths. -/
def worker_run_mkdir (cfg : Cfg) : WM Unit :=
  if cfg.v ≠ [] then emit (.makedirs cfg.data_path) else WM.pure ()

/-- Embeds `_StarterWorker._run`: assemble the command, create the data
directory when volumes were declared, then issue `docker run`. -/
def worker_run (cfg : Cfg) (cli : Cli) : WM Bool := do
  let _ ← worker_run_mkdir cfg
  docker_run (buildRunCmd cfg cli)

/-- Embeds `_StarterWorker._start`: start an already-known container; else
fetch the image when it is not tracked locally (abort on fetch failure);
then create and run the container. -/
def worker_start (cfg : Cfg) (cli : Cli) (containers : List String) : WM Unit := do
  if containers.contains cfg.name then
    let _ ← docker_start cfg.name
    WM.pure ()
  else do
    let m ← docker_images_sha256
    if !pyDictContains m cfg.image then do
      let p ← worker_pull cfg cli
      if !p then WM.pure ()
      else do
        let _ ← worker_run cfg cli
        WM.pure ()
    else do
      let _ ← worker_run cfg cli
      WM.pure ()

/-- Embeds `_StarterWorker.__remove`: remove the container when it is in the
snapshot, else succeed as a no-op. -/
def worker_remove_container (cfg : Cfg) (containers : List String) : WM Bool := do
  if containers.contains cfg.name then docker_rm cfg.name else WM.pure true

/-- Left operand of the guard in `_StarterWorker._rmi`:
`id_ is not None and id_ in _docker_repo_id()` (the listing runs only when an
ID was passed). -/
def worker_rmi_known_id (id_ : Option String) : WM Bool :=
  match id_ with
  | some i => do
    let ids ← docker_repo_id
    WM.pure (ids.contains i)
  | none => WM.pure false

/-- Right operand of the guard in `_StarterWorker._rmi`, evaluated only when
the left operand was false (Python `or` short-circuit):
`self._cfg['image'] in _docker_images_sha256()`. -/
def worker_rmi_tracked (cfg : Cfg) (c1 : Bool) : WM Bool :=
  if c1 then WM.pure true
  else do
    let m ← docker_images_sha256
    WM.pure (pyDictContains m cfg.image)

/-- Python `id_ or self._cfg['image']`: the deletion target, falling back to
the reference when the ID is falsy. -/
def rmiTarget (cfg : Cfg) (id_ : Option String) : String :=
  match id_ with
  | some i => if i = "" then cfg.image else i
  | none => cfg.image

/-- Embeds `_StarterWorker._rmi`: delete only when the given ID is among the
known image IDs, or (short-circuit) the reference is still a tracked image;
an absent image is a successful no-op; a failed deletion is reported and
returns `False`. -/
def worker_rmi (cfg : Cfg) (id_ : Option String) : WM Bool := do
  let c1 ← worker_rmi_known_id id_
  let cond ← worker_rmi_tracked cfg c1
  if cond then do
    let ok ← docker_rmi (rmiTarget cfg id_)
    if ok then WM.pure true else WM.pure false
  else WM.pure true

/-- The replacement block of `_StarterWorker._upgrade`:
`if self._stop() and self.__remove(): self._run()` — the new container runs
only when both stopping and removing the old one succeeded; either failure
skips the rest of this block without aborting the upgrade. -/
def worker_upgrade_replace (cfg : Cfg) (cli : Cli) (containers : List String) : WM Unit := do
  let s ← worker_stop cfg containers
  if s then do
    let r ← worker_remove_container cfg containers
    if r then do
      let _ ← worker_run cfg cli
      WM.pure ()
    else WM.pure ()
  else WM.pure ()

/-- The final statements of `_StarterWorker._upgrade`:
`name, _ = self._cfg['image'].rsplit(':', 1)` (a `ValueError` when the
reference has no colon) followed by `self._rmi(old_id_)`. -/
def worker_upgrade_cleanup (cfg : Cfg) (old_id : String) : WM Unit :=
  match rsplit1 ':' cfg.image with
  | none => throwW .valueError
  | some _ => do
    let _ ← worker_rmi cfg (some old_id)
    WM.pure ()

/-- Embeds `_StarterWorker._upgrade`: degrade to start when no local digest;
abort on missing image ID; run the source guard; proceed only when stale or
`-b`; fetch the new image; on success run the replacement block and then in
every case the old-image cleanup. -/
def worker_upgrade (cfg : Cfg) (cli : Cli) (containers : List String) : WM Unit := do
  let m ← docker_images_sha256
  match pyDictGet m cfg.image with
  | none => worker_start cfg cli containers
  | some old_sha => do
    let ids ← docker_images_id
    match pyDictGet ids cfg.image with
    | none => WM.pure ()
    | some old_id => do
      if !worker_allow_source_change cli old_sha then WM.pure ()
      else do
        let upd ← worker_update cfg (some old_sha)
        if !(upd || cli.b) then WM.pure ()
        else do
          let p ← worker_pull cfg cli
          if !p then WM.pure ()
          else do
            worker_upgrade_replace cfg cli containers
            worker_upgrade_cleanup cfg old_id

/-- The conditional container removal of `_StarterWorker._remove`: Python
`self._stop() and self.__remove()` evaluates `__remove` only when the stop
succeeded. -/
def worker_remove_mid (cfg : Cfg) (containers : List String) (s : Bool) : WM Bool :=
  if s then worker_remove_container cfg containers else WM.pure true

/-- Embeds `_StarterWorker._remove`: stop, conditionally remove the
container (result discarded), then in every case attempt image removal by
reference and return its result. -/
def worker_remove (cfg : Cfg) (containers : List String) : WM Bool := do
  let s ← worker_stop cfg containers
  let _ ← worker_remove_mid cfg containers s
  worker_rmi cfg none

/-- Embeds `_StarterWorker._purge`: run remove, and only when it returned
`True` recursively delete the data tree (`ignore_errors=True`, so the
deletion itself never fails, a missing path included). -/
def worker_purge (cfg : Cfg) (containers : List String) : WM Unit := do
  let r ← worker_remove cfg containers
  if r then emit (.rmtree cfg.data_path) else WM.pure ()

/-- Embeds `_StarterWorker.run`: dispatch on the selected action.  A `Cfg`
value always passes `_config_check` (mandatory keys present, all keys
well-typed), so the dispatch is unconditional.  The final `self._status = 0`
is reached exactly when no exception escaped, i.e. when the result is `.ok`. -/
def runWorker (cfg : Cfg) (cli : Cli) (containers : List String) : WM Unit := do
  if cli.start then worker_start cfg cli containers
  else if cli.stop then do
    let _ ← worker_stop cfg containers
    WM.pure ()
  else if cli.update then do
    let _ ← worker_update cfg none
    WM.pure ()
  else if cli.upgrade then worker_upgrade cfg cli containers
  else if cli.remove then do
    let _ ← worker_remove cfg containers
    WM.pure ()
  else if cli.purge then worker_purge cfg containers
  else WM.pure ()

/-! ## Embedded coordinator (`DockerStarter`) -/

/-- Embeds the loop body of `DockerStarter._check` over the configuration
list, carrying the accumulated name and image sets; `some 1` models
`exit(1)`. -/
def checkGo (t : Bool) : List Cfg → List String → List String → Option Nat
  | [], _, _ => none
  | c :: rest, names, images =>
    if names.contains c.name then some 1
    else if t && images.contains c.image then some 1
    else checkGo t rest (c.name :: names) (c.image :: images)

/-- Embeds `DockerStarter._check`: duplicate names always exit 1; duplicate
images exit 1 only under `-t`. -/
def starter_check (cfgs : List Cfg) (t : Bool) : Option Nat :=
  checkGo t cfgs [] []

/-- Sequential worker execution (`DockerStarter._one_by_one`): run each
worker to its terminal status before starting the next.  A worker whose
thread dies with an exception never reaches terminal status, so the
coordinator polls it forever: the process produces no exit code (`none`)
and later workers never start. -/
def runWorkersSeq (cli : Cli) (containers : List String) : List Cfg → WM (Option Nat)
  | [] => WM.pure (some 0)
  | c :: rest => fun q =>
    match runWorker c cli containers q with
    | (.ok _, q1, d1) =>
      match runWorkersSeq cli containers rest q1 with
      | (r, q2, d2) => (r, q2, d1 ++ d2)
    | (.error _, q1, d1) => (.ok none, q1, d1)

/-- Embeds the `DockerStarter` constructor flow after the snapshot is taken:
validate the declared set (exiting 1 before any worker starts and before any
side effect), then drive the workers; a run in which every worker reaches
terminal status exits 0 regardless of the reported per-container outcomes. -/
def mainRun (cfgs : List Cfg) (cli : Cli) (containers : List String) : WM (Option Nat) :=
  match starter_check cfgs cli.t with
  | some c => WM.pure (some c)
  | none => runWorkersSeq cli containers cfgs

/-! ## Concrete scenarios used by counterexamples and witnesses -/

/-- The spec's running example: `{name:"c1", image:"repo:tag", data_path:"/d"}`. -/
def exCfg : Cfg := { name := "c1", image := "repo:tag", data_path := "/d" }

/-- The running example with one declared volume `sub → /c`. -/
def exCfgVol : Cfg :=
  { name := "c1"
    image := "repo:tag"
    data_path := "/d"
    v := [("sub", "/c")] }

/-- A second spec with a fresh name but the same image as `exCfg`. -/
def exCfg2 : Cfg := { name := "c2", image := "repo:tag", data_path := "/d2" }

/-- An oracle with every queue empty (every docker call fails, every
registry call is a transport failure). -/
def exOracleEmpty : Oracle := {}

/-- A fully-featured spec exercising every section of the run command:
one port, one volume, one declared env var, and both extra-argument
encodings (space separator and empty separator). -/
def exCfgFull : Cfg :=
  { name := "c1"
    image := "repo:tag"
    data_path := "/d"
    p := [("80", "8080")]
    v := [("sub", "/c")]
    e := [("K", "V")]
    any := [("--log-driver", " ", "json-file"), ("--cpus", "", "=2")] }

def exCliStart : Cli := { start := true }

def exCliStartE : Cli := { start := true, e := some ["X=1"] }

def exCliUpdate : Cli := { update := true }

def exCliUpgrade : Cli := { upgrade := true }

def exCliUpgradeB : Cli := { upgrade := true, b := true }

def exCliUpgradeF : Cli := { upgrade := true, f := true }

def exCliRemove : Cli := { remove := true }

def exCliPurge : Cli := { purge := true }

/-- A registry outcome that succeeds and reports digest `sha256:bbb`. -/
def exRemoteDiff : RegistryOutcome :=
  ⟨true, 200, true, some "tok", true, 200, true, some "sha256:bbb", none⟩

/-- A registry outcome whose auth request returns status 500 (fetch failure
handled by returning `None`). -/
def exRemoteAuthFail : RegistryOutcome :=
  ⟨true, 500, true, some "tok", true, 200, true, none, none⟩

/-- A registry outcome with status 200 but neither a `Docker-Content-Digest`
nor an `Etag` header. -/
def exRemoteNoHeader : RegistryOutcome :=
  ⟨true, 200, true, some "tok", true, 200, true, none, none⟩

/-- Scripted collaborators for the C1 counterexample: image and ID tracked,
update available, pull succeeds, but stopping the old container fails; the
old image ID is still known, and its deletion succeeds. -/
def exOracleStopFail : Oracle :=
  { imagesShaQ := [⟨0, "repo:tag sha256:aaa"⟩]
    imagesIdQ := [⟨0, "repo:tag abc123"⟩]
    remoteQ := [exRemoteDiff]
    pullQ := [true]
    stopQ := [false]
    repoIdQ := [⟨0, "abc123"⟩]
    rmiQ := [true] }

/-- Scripted collaborators for the C2 failing input: local digest present,
registry answers 200 with no digest header at all. -/
def exOracleNoHeader : Oracle :=
  { imagesShaQ := [⟨0, "repo:tag sha256:aaa"⟩]
    remoteQ := [exRemoteNoHeader] }

/-- Scripted collaborators for the C4 counterexample: locally built image
(`<none>` digest), fetch fails with status 500, build and the rest succeed. -/
def exOracleFetchFailBuild : Oracle :=
  { imagesShaQ := [⟨0, "repo:tag <none>"⟩]
    imagesIdQ := [⟨0, "repo:tag abc123"⟩]
    remoteQ := [exRemoteAuthFail]
    buildQ := [true]
    runQ := [true]
    repoIdQ := [⟨0, "abc123"⟩]
    rmiQ := [true] }

/-- Scripted collaborators for the C4 witness: same fetch failure without the
build flag. -/
def exOracleFetchFail : Oracle :=
  { imagesShaQ := [⟨0, "repo:tag sha256:aaa"⟩]
    imagesIdQ := [⟨0, "repo:tag abc123"⟩]
    remoteQ := [exRemoteAuthFail] }

/-- Scripted collaborators for the C7 counterexample: container present but
stopping it fails; the image is tracked and its removal succeeds. -/
def exOracleRemoveStopFail : Oracle :=
  { stopQ := [false]
    imagesShaQ := [⟨0, "repo:tag sha256:aaa"⟩]
    rmiQ := [true] }

/-- Scripted collaborators for the C7 witness, part 2: stop succeeds,
container removal fails, image tracked, image removal succeeds. -/
def exOracleRmFail : Oracle :=
  { stopQ := [true]
    rmQ := [false]
    imagesShaQ := [⟨0, "repo:tag sha256:aaa"⟩]
    rmiQ := [true] }

/-- Scripted collaborators for the C8 counterexample: container absent, image
tracked, and `docker rmi` fails. -/
def exOracleRmiFail : Oracle :=
  { imagesShaQ := [⟨0, "repo:tag sha256:aaa"⟩]
    rmiQ := [false] }

/-- Scripted collaborators for the C8 witness: container present, stop fails,
image tracked, `docker rmi` succeeds. -/
def exOraclePurgeStopFail : Oracle :=
  { stopQ := [false]
    imagesShaQ := [⟨0, "repo:tag sha256:aaa"⟩]
    rmiQ := [true] }

/-- Scripted collaborators for the C9 end-to-end scenario: image absent from
the local listing, pull and run succeed. -/
def exOracleStart : Oracle :=
  { imagesShaQ := [⟨0, "x:y z"⟩]
    pullQ := [true]
    runQ := [true] }

/-- Scripted collaborators for the C5 scenario: locally built image
(`<none>` digest) with its ID known. -/
def exOracleBuiltImage : Oracle :=
  { imagesShaQ := [⟨0, "repo:tag <none>"⟩]
    imagesIdQ := [⟨0, "repo:tag abc123"⟩]
    remoteQ := [exRemoteDiff] }

/-! ## Specification-side predicates -/

/-- Every event emitted by the computation, on every oracle, satisfies `p`
(also on executions that end in an escaped exception). -/
def TraceAll (x : WM α) (p : Event → Bool) : Prop :=
  ∀ q, ((x q).2.2).all p = true

/-- The event is not a mutating call (frame predicate for read-only
actions). -/
def nonMut (e : Event) : Bool := !e.isMut

/-- The event is not an image deletion. -/
def noRmiP (e : Event) : Bool := !e.isRmi

/-- The event is not a container-creation call. -/
def noRunP (e : Event) : Bool := !e.isRun

/-- Temporal check: after any image-deletion event no container-creation
call occurs — i.e. the trace never runs the new container after deleting
the old image, so a deletion can never precede the run it belongs to. -/
def noRunAfterRmi : List Event → Bool
  | [] => true
  | e :: ts => if e.isRmi then ts.all noRunP else noRunAfterRmi ts

/-- Temporal check: every image-deletion event is preceded by a successful
pull or build (scanning left to right, a deletion may only appear after a
successful fetch has been seen). -/
def fetchOkBeforeRmi : List Event → Bool
  | [] => true
  | e :: ts =>
    if e.isRmi then false
    else if e.isFetchOk then true
    else fetchOkBeforeRmi ts

/-- Modelled from the spec, §4.6 (for comparison with the code's
`buildRunCmd`): "detached flag first; then one port-publish entry per port
mapping; then one bind-mount entry per volume mapping, where the host side
is `data_path` joined with the declared subpath; then one environment entry
per declared env var, followed by one per CLI-supplied override (both
literally, not merged/deduplicated); then each raw extra-argument entry,
encoded as a single token when its internal separator is empty and as a
flag+value pair when the separator is a space character; then the
restart-policy flag; then the container name flag; then the image reference
as the final positional argument." -/
def specRunArgs (cfg : Cfg) (cli : Cli) : List String :=
  List.flatten
    ([["-d"]] ++
     cfg.p.map (fun kv => ["-p", kv.1 ++ ":" ++ kv.2]) ++
     cfg.v.map (fun kv => ["-v", osPathJoin cfg.data_path kv.1 ++ ":" ++ kv.2]) ++
     cfg.e.map (fun kv => ["-e", kv.1 ++ "=" ++ kv.2]) ++
     (cli.e.getD []).map (fun env => ["-e", env]) ++
     cfg.any.map (fun el =>
       if el.2.1 = "" then [el.1 ++ el.2.2] else [el.1, el.2.2]) ++
     [["--restart=" ++ cfg.restart.getD "always"], ["--name", cfg.name],
      [cfg.image]])

/-! ## Trace infrastructure -/

theorem traceAll_bind {x : WM α} {f : α → WM β} {p : Event → Bool}
    (hx : TraceAll x p) (hf : ∀ a, TraceAll (f a) p) : TraceAll (x >>= f) p := by
  intro q
  show ((WM.bind x f) q).2.2.all p = true
  unfold WM.bind
  rcases hxq : x q with ⟨r, q1, d1⟩
  have h1 := hx q
  rw [hxq] at h1
  cases r with
  | error e => simpa using h1
  | ok a =>
    rcases hfq : f a q1 with ⟨r2, q2, d2⟩
    have h2 := hf a q1
    rw [hfq] at h2
    simp only at h1 h2
    simp [hfq, List.all_append, h1, h2]

theorem traceAll_pure {p : Event → Bool} (a : α) : TraceAll (WM.pure a) p := by
  intro q; rfl

theorem traceAll_pure' {p : Event → Bool} (a : α) : TraceAll (Pure.pure a : WM α) p :=
  traceAll_pure a

theorem traceAll_throw {p : Event → Bool} (e : PyExc) : TraceAll (throwW e : WM α) p := by
  intro q; rfl

theorem traceAll_emit {p : Event → Bool} {e : Event} (h : p e = true) :
    TraceAll (emit e) p := by
  intro q; simp [emit, h]

theorem traceAll_ofExcept {p : Event → Bool} (r : Except PyExc α) :
    TraceAll (ofExcept r) p := by
  cases r
  · exact traceAll_throw _
  · exact traceAll_pure _

theorem traceAll_ite {c : Prop} [Decidable c] {x y : WM α} {p : Event → Bool}
    (hx : TraceAll x p) (hy : TraceAll y p) : TraceAll (if c then x else y) p := by
  by_cases h : c <;> simp [h, hx, hy]

theorem traceAll_takeImagesSha {p : Event → Bool} : TraceAll takeImagesSha p := by
  intro q; rfl

theorem traceAll_takeImagesId {p : Event → Bool} : TraceAll takeImagesId p := by
  intro q; rfl

theorem traceAll_takeRepoId {p : Event → Bool} : TraceAll takeRepoId p := by
  intro q; rfl

theorem traceAll_takeRemote {p : Event → Bool} : TraceAll takeRemote p := by
  intro q; rfl

theorem traceAll_takeStop {p : Event → Bool} : TraceAll takeStop p := by
  intro q; rfl

theorem traceAll_takeStart {p : Event → Bool} : TraceAll takeStart p := by
  intro q; rfl

theorem traceAll_takeRm {p : Event → Bool} : TraceAll takeRm p := by
  intro q; rfl

theorem traceAll_takeRmi {p : Event → Bool} : TraceAll takeRmi p := by
  intro q; rfl

theorem traceAll_takePull {p : Event → Bool} : TraceAll takePull p := by
  intro q; rfl

theorem traceAll_takeBuild {p : Event → Bool} : TraceAll takeBuild p := by
  intro q; rfl

theorem traceAll_takeRun {p : Event → Bool} : TraceAll takeRun p := by
  intro q; rfl

theorem traceAll_docker_images_sha256 {p : Event → Bool} (h : p .imagesSha256 = true) :
    TraceAll docker_images_sha256 p := by
  unfold docker_images_sha256
  exact traceAll_bind (traceAll_emit h) fun _ =>
    traceAll_bind traceAll_takeImagesSha fun res =>
      traceAll_ite (traceAll_throw _) (traceAll_ofExcept _)

theorem traceAll_docker_images_id {p : Event → Bool} (h : p .imagesId = true) :
    TraceAll docker_images_id p := by
  unfold docker_images_id
  exact traceAll_bind (traceAll_emit h) fun _ =>
    traceAll_bind traceAll_takeImagesId fun res =>
      traceAll_ite (traceAll_throw _) (traceAll_ofExcept _)

theorem traceAll_docker_repo_id {p : Event → Bool} (h : p .repoIds = true) :
    TraceAll docker_repo_id p := by
  unfold docker_repo_id
  exact traceAll_bind (traceAll_emit h) fun _ =>
    traceAll_bind traceAll_takeRepoId fun res =>
      traceAll_ite (traceAll_throw _) (traceAll_pure _)

theorem traceAll_docker_stop {p : Event → Bool} {name : String}
    (h : ∀ b, p (.stopC name b) = true) : TraceAll (docker_stop name) p := by
  unfold docker_stop
  exact traceAll_bind traceAll_takeStop fun r =>
    traceAll_bind (traceAll_emit (h r)) fun _ => traceAll_pure _

theorem traceAll_docker_start {p : Event → Bool} {name : String}
    (h : ∀ b, p (.startC name b) = true) : TraceAll (docker_start name) p := by
  unfold docker_start
  exact traceAll_bind traceAll_takeStart fun r =>
    traceAll_bind (traceAll_emit (h r)) fun _ => traceAll_pure _

theorem traceAll_docker_rm {p : Event → Bool} {name : String}
    (h : ∀ b, p (.rmC name b) = true) : TraceAll (docker_rm name) p := by
  unfold docker_rm
  exact traceAll_bind traceAll_takeRm fun r =>
    traceAll_bind (traceAll_emit (h r)) fun _ => traceAll_pure _

theorem traceAll_docker_rmi {p : Event → Bool} {target : String}
    (h : ∀ b, p (.rmiI target b) = true) : TraceAll (docker_rmi target) p := by
  unfold docker_rmi
  exact traceAll_bind traceAll_takeRmi fun r =>
    traceAll_bind (traceAll_emit (h r)) fun _ => traceAll_pure _

theorem traceAll_docker_pull {p : Event → Bool} {ref : String}
    (h : ∀ b, p (.pull ref b) = true) : TraceAll (docker_pull ref) p := by
  unfold docker_pull
  exact traceAll_bind traceAll_takePull fun r =>
    traceAll_bind (traceAll_emit (h r)) fun _ => traceAll_pure _

theorem traceAll_docker_build {p : Event → Bool} {ref file path : String}
    (h : ∀ b, p (.build ref file path b) = true) :
    TraceAll (docker_build ref file path) p := by
  unfold docker_build
  exact traceAll_bind traceAll_takeBuild fun r =>
    traceAll_bind (traceAll_emit (h r)) fun _ => traceAll_pure _

theorem traceAll_docker_run {p : Event → Bool} {args : List String}
    (h : ∀ b, p (.runC args b) = true) : TraceAll (docker_run args) p := by
  unfold docker_run
  exact traceAll_bind traceAll_takeRun fun r =>
    traceAll_bind (traceAll_emit (h r)) fun _ => traceAll_pure _

theorem traceAll_docker_remote_sha256 {p : Event → Bool} {ref : String}
    (h : p (.remoteSha ref) = true) : TraceAll (docker_remote_sha256 ref) p := by
  unfold docker_remote_sha256
  cases hr : rsplit1 ':' ref with
  | none => exact traceAll_throw _
  | some v =>
    exact traceAll_bind (traceAll_emit h) fun _ =>
      traceAll_bind traceAll_takeRemote fun o => traceAll_ofExcept _

theorem traceAll_worker_stop {p : Event → Bool} {cfg : Cfg} {containers : List String}
    (h : ∀ b, p (.stopC cfg.name b) = true) : TraceAll (worker_stop cfg containers) p := by
  unfold worker_stop
  exact traceAll_ite
    (traceAll_bind (traceAll_docker_stop h) fun ok =>
      traceAll_ite (traceAll_pure _) (traceAll_pure _))
    (traceAll_pure _)

theorem traceAll_worker_pull {p : Event → Bool} {cfg : Cfg} {cli : Cli}
    (h1 : ∀ b, p (.pull cfg.image b) = true)
    (h2 : ∀ b, p (.build cfg.image cfg.dockerfile cfg.docker_path b) = true) :
    TraceAll (worker_pull cfg cli) p := by
  unfold worker_pull
  exact traceAll_ite (traceAll_docker_build h2) (traceAll_docker_pull h1)

theorem traceAll_worker_update_resolve {p : Event → Bool} {cfg : Cfg}
    {old_sha : Option String} (h1 : p .imagesSha256 = true) :
    TraceAll (worker_update_resolve cfg old_sha) p := by
  unfold worker_update_resolve
  cases old_sha with
  | none =>
    exact traceAll_bind (traceAll_docker_images_sha256 h1) fun m => traceAll_pure _
  | some s =>
    exact traceAll_ite
      (traceAll_bind (traceAll_docker_images_sha256 h1) fun m => traceAll_pure _)
      (traceAll_pure _)

theorem traceAll_worker_update_core {p : Event → Bool} {cfg : Cfg}
    {old : Option String} (h2 : p (.remoteSha cfg.image) = true) :
    TraceAll (worker_update_core cfg old) p := by
  unfold worker_update_core
  cases old with
  | none => exact traceAll_pure _
  | some o =>
    exact traceAll_bind (traceAll_docker_remote_sha256 h2) fun nw => by
      cases nw with
      | none => exact traceAll_pure _
      | some n => exact traceAll_ite (traceAll_pure _) (traceAll_pure _)

theorem traceAll_worker_update {p : Event → Bool} {cfg : Cfg} {old_sha : Option String}
    (h1 : p .imagesSha256 = true) (h2 : p (.remoteSha cfg.image) = true) :
    TraceAll (worker_update cfg old_sha) p := by
  unfold worker_update
  exact traceAll_bind (traceAll_worker_update_resolve h1) fun old =>
    traceAll_worker_update_core h2

theorem traceAll_worker_run {p : Event → Bool} {cfg : Cfg} {cli : Cli}
    (h1 : p (.makedirs cfg.data_path) = true)
    (h2 : ∀ b, p (.runC (buildRunCmd cfg cli) b) = true) :
    TraceAll (worker_run cfg cli) p := by
  unfold worker_run
  refine traceAll_bind ?_ fun _ => traceAll_docker_run h2
  exact traceAll_ite (traceAll_emit h1) (traceAll_pure _)

theorem traceAll_worker_remove_container {p : Event → Bool} {cfg : Cfg}
    {containers : List String} (h : ∀ b, p (.rmC cfg.name b) = true) :
    TraceAll (worker_remove_container cfg containers) p := by
  unfold worker_remove_container
  exact traceAll_ite (traceAll_docker_rm h) (traceAll_pure _)

theorem traceAll_worker_start {p : Event → Bool} {cfg : Cfg} {cli : Cli}
    {containers : List String}
    (hstart : ∀ b, p (.startC cfg.name b) = true)
    (hsha : p .imagesSha256 = true)
    (hpull : ∀ b, p (.pull cfg.image b) = true)
    (hbuild : ∀ b, p (.build cfg.image cfg.dockerfile cfg.docker_path b) = true)
    (hmk : p (.makedirs cfg.data_path) = true)
    (hrun : ∀ b, p (.runC (buildRunCmd cfg cli) b) = true) :
    TraceAll (worker_start cfg cli containers) p := by
  unfold worker_start
  refine traceAll_ite ?_ ?_
  · exact traceAll_bind (traceAll_docker_start hstart) fun _ => traceAll_pure _
  · refine traceAll_bind (traceAll_docker_images_sha256 hsha) fun m => ?_
    refine traceAll_ite ?_ ?_
    · refine traceAll_bind (traceAll_worker_pull hpull hbuild) fun pr => ?_
      refine traceAll_ite (traceAll_pure _) ?_
      exact traceAll_bind (traceAll_worker_run hmk hrun) fun _ => traceAll_pure _
    · exact traceAll_bind (traceAll_worker_run hmk hrun) fun _ => traceAll_pure _

theorem traceAll_worker_rmi_known_id {p : Event → Bool} {id_ : Option String}
    (h1 : p .repoIds = true) : TraceAll (worker_rmi_known_id id_) p := by
  unfold worker_rmi_known_id
  cases id_ with
  | none => exact traceAll_pure _
  | some i =>
    exact traceAll_bind (traceAll_docker_repo_id h1) fun ids => traceAll_pure _

theorem traceAll_worker_rmi_tracked {p : Event → Bool} {cfg : Cfg} {c1 : Bool}
    (h2 : p .imagesSha256 = true) : TraceAll (worker_rmi_tracked cfg c1) p := by
  unfold worker_rmi_tracked
  exact traceAll_ite (traceAll_pure _)
    (traceAll_bind (traceAll_docker_images_sha256 h2) fun m => traceAll_pure _)

theorem traceAll_worker_rmi {p : Event → Bool} {cfg : Cfg} {id_ : Option String}
    (h1 : p .repoIds = true) (h2 : p .imagesSha256 = true)
    (h3 : ∀ t b, p (.rmiI t b) = true) :
    TraceAll (worker_rmi cfg id_) p := by
  unfold worker_rmi
  refine traceAll_bind (traceAll_worker_rmi_known_id h1) fun c1 => ?_
  refine traceAll_bind (traceAll_worker_rmi_tracked h2) fun cond => ?_
  refine traceAll_ite ?_ (traceAll_pure _)
  exact traceAll_bind (traceAll_docker_rmi (h3 _)) fun ok =>
    traceAll_ite (traceAll_pure _) (traceAll_pure _)

/-- C6 — For every ContainerSpec, the update action (`_StarterWorker._update`
invoked by the dispatch with no pre-resolved digest) performs no mutating
runtime call — no pull, build, run, start, stop, container removal, image
removal, directory creation or deletion — under every collaborator outcome:
image absent locally, digests equal, digests unequal, and every fetch-failure
shape, including executions that end in an escaped exception. -/
theorem update_never_mutates (cfg : Cfg) (q : Oracle) :
    (traceOf (worker_update cfg none) q).all nonMut = true := by
  exact traceAll_worker_update (by rfl) (by rfl) q

/-! ## Trace decomposition of a bind -/

theorem bind_trace (x : WM α) (f : α → WM β) (q : Oracle) :
    ((x >>= f) q).2.2 = (x q).2.2 ++ (match (x q).1 with
      | .ok a => (f a (x q).2.1).2.2
      | .error _ => []) := by
  show ((WM.bind x f) q).2.2 = _
  unfold WM.bind
  rcases hxq : x q with ⟨r, q1, d1⟩
  cases r with
  | error e => simp
  | ok a =>
    rcases hfq : f a q1 with ⟨r2, q2, d2⟩
    simp [hfq]

/-! ## Ordering lemmas for the upgrade trace -/

theorem noRunAfterRmi_of_noRun {d : List Event} (h : d.all noRunP = true) :
    noRunAfterRmi d = true := by
  induction d with
  | nil => rfl
  | cons e ts ih =>
    simp only [List.all_cons, Bool.and_eq_true] at h
    unfold noRunAfterRmi
    by_cases he : e.isRmi = true <;> simp [he, h.2, ih h.2]

theorem noRunAfterRmi_append {d1 d2 : List Event} (h1 : d1.all noRmiP = true)
    (h2 : noRunAfterRmi d2 = true) : noRunAfterRmi (d1 ++ d2) = true := by
  induction d1 with
  | nil => simpa using h2
  | cons e ts ih =>
    simp only [List.all_cons, Bool.and_eq_true] at h1
    have he : e.isRmi = false := by
      have := h1.1
      unfold noRmiP at this
      simpa using this
    simpa [noRunAfterRmi, he] using ih h1.2

theorem noRunAfterRmi_of_noRmi {d : List Event} (h : d.all noRmiP = true) :
    noRunAfterRmi d = true := by
  have := @noRunAfterRmi_append d [] h (by rfl)
  simpa using this

theorem fetchOkBeforeRmi_append {d1 d2 : List Event} (h1 : d1.all noRmiP = true)
    (h2 : fetchOkBeforeRmi d2 = true) : fetchOkBeforeRmi (d1 ++ d2) = true := by
  induction d1 with
  | nil => simpa using h2
  | cons e ts ih =>
    simp only [List.all_cons, Bool.and_eq_true] at h1
    have he : e.isRmi = false := by
      have := h1.1
      unfold noRmiP at this
      simpa using this
    by_cases hf : e.isFetchOk = true <;>
      simp [fetchOkBeforeRmi, he, hf, ih h1.2]

theorem fetchOkBeforeRmi_of_noRmi {d : List Event} (h : d.all noRmiP = true) :
    fetchOkBeforeRmi d = true := by
  have := @fetchOkBeforeRmi_append d [] h (by rfl)
  simpa using this

theorem fetchOkBeforeRmi_cons_fetchOk {ev : Event} {d : List Event}
    (h : ev.isFetchOk = true) : fetchOkBeforeRmi (ev :: d) = true := by
  have he : ev.isRmi = false := by
    cases ev <;> simp_all [Event.isFetchOk, Event.isRmi]
  simp [fetchOkBeforeRmi, he, h]

/-! ## No-rmi and no-run facts about the upgrade components -/

theorem traceAll_worker_upgrade_replace_noRmi {cfg : Cfg} {cli : Cli}
    {containers : List String} :
    TraceAll (worker_upgrade_replace cfg cli containers) noRmiP := by
  unfold worker_upgrade_replace
  refine traceAll_bind (traceAll_worker_stop fun b => rfl) fun s => ?_
  refine traceAll_ite ?_ (traceAll_pure _)
  refine traceAll_bind (traceAll_worker_remove_container fun b => rfl) fun r => ?_
  refine traceAll_ite ?_ (traceAll_pure _)
  exact traceAll_bind (traceAll_worker_run rfl fun b => rfl) fun _ => traceAll_pure _

theorem traceAll_worker_upgrade_cleanup_noRun {cfg : Cfg} {old_id : String} :
    TraceAll (worker_upgrade_cleanup cfg old_id) noRunP := by
  unfold worker_upgrade_cleanup
  cases hr : rsplit1 ':' cfg.image with
  | none => exact traceAll_throw _
  | some v =>
    exact traceAll_bind (traceAll_worker_rmi rfl rfl fun t b => rfl) fun _ =>
      traceAll_pure _

theorem traceAll_worker_start_noRmi {cfg : Cfg} {cli : Cli} {containers : List String} :
    TraceAll (worker_start cfg cli containers) noRmiP :=
  traceAll_worker_start (fun b => rfl) rfl (fun b => rfl) (fun b => rfl) rfl (fun b => rfl)

theorem isFetchOk_build (r f p : String) (b : Bool) :
    (Event.build r f p b).isFetchOk = b := by
  cases b <;> rfl

theorem isFetchOk_pull (r : String) (b : Bool) : (Event.pull r b).isFetchOk = b := by
  cases b <;> rfl

theorem worker_pull_delta (cfg : Cfg) (cli : Cli) (q : Oracle) :
    ∃ b ev, (worker_pull cfg cli q).1 = .ok b ∧ (worker_pull cfg cli q).2.2 = [ev] ∧
      ev.isFetchOk = b ∧ ev.isRmi = false := by
  by_cases h : cli.b = true
  · refine ⟨q.buildQ.headD false, .build cfg.image cfg.dockerfile cfg.docker_path
      (q.buildQ.headD false), ?_⟩
    simp [worker_pull, docker_build, takeBuild, emit, h, WM.pure,
      isFetchOk_build, Event.isRmi, Bind.bind, WM.bind]
  · refine ⟨q.pullQ.headD false, .pull cfg.image (q.pullQ.headD false), ?_⟩
    simp [worker_pull, docker_pull, takePull, emit, h, WM.pure,
      isFetchOk_pull, Event.isRmi, Bind.bind, WM.bind]

/-- C1 (amended) — In every execution of the upgrade action, on every
collaborator behaviour: the old-image deletion can only appear after a
successful pull or build of the new image, and no container-creation call
ever follows an image deletion (so whenever the replacement container is
run at all, the run strictly precedes the deletion of the old image). -/
theorem upgrade_rmi_ordering (cfg : Cfg) (cli : Cli) (containers : List String)
    (q : Oracle) :
    noRunAfterRmi (traceOf (worker_upgrade cfg cli containers) q) = true ∧
    fetchOkBeforeRmi (traceOf (worker_upgrade cfg cli containers) q) = true := by
  have base : ∀ d : List Event, d.all noRmiP = true →
      noRunAfterRmi d = true ∧ fetchOkBeforeRmi d = true :=
    fun d h => ⟨noRunAfterRmi_of_noRmi h, fetchOkBeforeRmi_of_noRmi h⟩
  unfold traceOf worker_upgrade
  rw [bind_trace]
  have hsha : ∀ q0 : Oracle, ((docker_images_sha256 q0).2.2).all noRmiP = true :=
    traceAll_docker_images_sha256 rfl
  rcases hr1 : (docker_images_sha256 q).1 with e1 | m
  · simpa using base _ (hsha q)
  · simp only []
    set q1 := (docker_images_sha256 q).2.1 with hq1
    rcases pyDictGet m cfg.image with _ | old_sha
    · -- no local digest: degrade to start, which never deletes an image
      have hstart := @traceAll_worker_start_noRmi cfg cli containers q1
      refine base _ ?_
      simp [List.all_append, hsha q, hstart]
    · rw [bind_trace]
      have hid : ∀ q0 : Oracle, ((docker_images_id q0).2.2).all noRmiP = true :=
        traceAll_docker_images_id rfl
      rcases hr2 : (docker_images_id q1).1 with e2 | ids
      · refine base _ ?_
        simp [List.all_append, hsha q, hid q1]
      · simp only []
        set q2 := (docker_images_id q1).2.1 with hq2
        rcases pyDictGet ids cfg.image with _ | old_id
        · refine base _ ?_
          simp [List.all_append, hsha q, hid q1, WM.pure]
        · cases hguard : worker_allow_source_change cli old_sha with
          | false =>
            refine base _ ?_
            simp [List.all_append, hguard, hsha q, hid q1, WM.pure]
          | true =>
            simp only [hguard, Bool.not_true]
            rw [if_neg (by simp)]
            rw [bind_trace]
            have hupd : ∀ q0 : Oracle,
                ((worker_update cfg (some old_sha) q0).2.2).all noRmiP = true :=
              traceAll_worker_update rfl rfl
            rcases hr3 : (worker_update cfg (some old_sha) q2).1 with e3 | upd
            · refine base _ ?_
              simp [List.all_append, hsha q, hid q1, hupd q2]
            · simp only []
              set q3 := (worker_update cfg (some old_sha) q2).2.1 with hq3
              cases hgate : (upd || cli.b) with
              | false =>
                rw [if_pos (show (!false) = true from rfl)]
                refine base _ ?_
                simp [List.all_append, hsha q, hid q1, hupd q2, WM.pure]
              | true =>
                simp only [hgate, Bool.not_true]
                rw [if_neg (by simp)]
                rw [bind_trace]
                obtain ⟨pb, ev, hpres, hptr, hfok, hnrmi⟩ := worker_pull_delta cfg cli q3
                rw [hpres, hptr]
                simp only []
                set q4 := (worker_pull cfg cli q3).2.1 with hq4
                cases pb with
                | false =>
                  refine base _ ?_
                  simp [List.all_append, hsha q, hid q1, hupd q2, noRmiP, hnrmi, WM.pure]
                | true =>
                  rw [if_neg (by simp)]
                  rw [bind_trace]
                  have hrep : ∀ q0 : Oracle,
                      ((worker_upgrade_replace cfg cli containers q0).2.2).all noRmiP
                        = true :=
                    traceAll_worker_upgrade_replace_noRmi
                  have hclean : ∀ q0 : Oracle,
                      ((worker_upgrade_cleanup cfg old_id q0).2.2).all noRunP = true :=
                    traceAll_worker_upgrade_cleanup_noRun
                  rcases hr4 : (worker_upgrade_replace cfg cli containers q4).1
                    with e4 | u
                  · refine base _ ?_
                    simp [List.all_append, hsha q, hid q1, hupd q2, noRmiP, hnrmi,
                      hrep q4]
                  · simp only []
                    set q5 := (worker_upgrade_replace cfg cli containers q4).2.1
                      with hq5
                    constructor
                    · refine noRunAfterRmi_append (hsha q) ?_
                      refine noRunAfterRmi_append (hid q1) ?_
                      refine noRunAfterRmi_append (hupd q2) ?_
                      refine @noRunAfterRmi_append [ev] _ (by simp [noRmiP, hnrmi]) ?_
                      refine noRunAfterRmi_append (hrep q4) ?_
                      exact noRunAfterRmi_of_noRun (hclean q5)
                    · refine fetchOkBeforeRmi_append (hsha q) ?_
                      refine fetchOkBeforeRmi_append (hid q1) ?_
                      refine fetchOkBeforeRmi_append (hupd q2) ?_
                      exact fetchOkBeforeRmi_cons_fetchOk hfok

/-- C1 counterexample — concrete upgrade execution in which the old image is
deleted although the new container never started: the container is present,
an update is available, the pull succeeds, but `docker stop` fails, so the
replacement block is skipped entirely (`if self._stop() and ...`); the
cleanup still deletes the old image by its captured ID.  The trace ends in
the successful deletion and contains no `docker run` call at all. -/
theorem upgrade_deletes_image_without_new_run :
    traceOf (runWorker exCfg exCliUpgrade ["c1"]) exOracleStopFail =
      [.imagesSha256, .imagesId, .remoteSha "repo:tag", .pull "repo:tag" true,
       .stopC "c1" false, .repoIds, .rmiI "abc123" true] ∧
    (traceOf (runWorker exCfg exCliUpgrade ["c1"]) exOracleStopFail).any Event.isRun
      = false := by
  exact ⟨by decide, by decide⟩

/-- C2 (code bug) — at the failing input (an `--update` run whose registry
answers 200 with neither `Docker-Content-Digest` nor `Etag` header),
`_docker_remote_sha256` prints its error message but then evaluates
`sha256.strip('"')` on `None`: the `AttributeError` escapes
`_StarterWorker.run`, so `self._status = 0` is never executed and the
coordinator polls the worker forever.  The embedded worker result is the
escaped exception, not a reported outcome. -/
theorem worker_missing_digest_header_raises :
    resOf (runWorker exCfg exCliUpdate []) exOracleNoHeader
      = .error .attributeError ∧
    traceOf (runWorker exCfg exCliUpdate []) exOracleNoHeader
      = [.imagesSha256, .remoteSha "repo:tag"] := by
  exact ⟨rfl, by decide⟩

/-! ## Validation-check lemmas -/

theorem checkGo_range (t : Bool) :
    ∀ (cfgs : List Cfg) (names images : List String),
    checkGo t cfgs names images = none ∨ checkGo t cfgs names images = some 1 := by
  intro cfgs
  induction cfgs with
  | nil => intro names images; left; rfl
  | cons c rest ih =>
    intro names images
    unfold checkGo
    by_cases h1 : c.name ∈ names
    · simp [h1]
    · by_cases h2 : t = true ∧ c.image ∈ images
      · simp [h1, h2]
      · simp [h1, h2, ih]

theorem checkGo_none_names (t : Bool) :
    ∀ (cfgs : List Cfg) (names images : List String),
    checkGo t cfgs names images = none →
      (cfgs.map Cfg.name).Nodup ∧ ∀ x ∈ cfgs.map Cfg.name, x ∉ names := by
  intro cfgs
  induction cfgs with
  | nil => intro names images _; simp
  | cons c rest ih =>
    intro names images h
    unfold checkGo at h
    by_cases h1 : c.name ∈ names
    · simp [h1] at h
    · by_cases h2 : t = true ∧ c.image ∈ images
      · simp [h1, h2] at h
      · rw [if_neg (by simpa [List.elem_iff] using h1)] at h
        rw [if_neg (by
          simp only [Bool.and_eq_true]
          rintro ⟨ht, hcont⟩
          exact h2 ⟨ht, by simpa [List.elem_iff] using hcont⟩)] at h
        obtain ⟨hN, hall⟩ := ih (c.name :: names) (c.image :: images) h
        have hcn : c.name ∉ names := h1
        refine ⟨?_, ?_⟩
        · simp only [List.map_cons, List.nodup_cons]
          refine ⟨?_, hN⟩
          intro hmem
          have := hall c.name hmem
          simp at this
        · intro x hx
          simp only [List.map_cons, List.mem_cons] at hx
          rcases hx with hx | hx
          · subst hx; exact hcn
          · have := hall x hx
            simp only [List.mem_cons, not_or] at this
            exact this.2

theorem checkGo_none_images :
    ∀ (cfgs : List Cfg) (names images : List String),
    checkGo true cfgs names images = none →
      (cfgs.map Cfg.image).Nodup ∧ ∀ x ∈ cfgs.map Cfg.image, x ∉ images := by
  intro cfgs
  induction cfgs with
  | nil => intro names images _; simp
  | cons c rest ih =>
    intro names images h
    unfold checkGo at h
    by_cases h1 : c.name ∈ names
    · simp [h1] at h
    · by_cases h2 : c.image ∈ images
      · simp [h1, h2] at h
      · rw [if_neg (by simpa [List.elem_iff] using h1)] at h
        rw [if_neg (by
          simp only [Bool.true_and]
          simpa [List.elem_iff] using h2)] at h
        obtain ⟨hI, hall⟩ := ih (c.name :: names) (c.image :: images) h
        have hci : c.image ∉ images := h2
        refine ⟨?_, ?_⟩
        · simp only [List.map_cons, List.nodup_cons]
          refine ⟨?_, hI⟩
          intro hmem
          have := hall c.image hmem
          simp at this
        · intro x hx
          simp only [List.map_cons, List.mem_cons] at hx
          rcases hx with hx | hx
          · subst hx; exact hci
          · have := hall x hx
            simp only [List.mem_cons, not_or] at this
            exact this.2

theorem checkGo_false_none :
    ∀ (cfgs : List Cfg) (names images : List String),
    (cfgs.map Cfg.name).Nodup → (∀ x ∈ cfgs.map Cfg.name, x ∉ names) →
    checkGo false cfgs names images = none := by
  intro cfgs
  induction cfgs with
  | nil => intro names images _ _; rfl
  | cons c rest ih =>
    intro names images hN hall
    simp only [List.map_cons, List.nodup_cons] at hN
    unfold checkGo
    have hc : c.name ∉ names := hall c.name (by simp)
    rw [if_neg (by simpa [List.elem_iff] using hc), if_neg (by simp)]
    refine ih _ _ hN.2 ?_
    intro x hx
    simp only [List.mem_cons, not_or]
    refine ⟨?_, hall x (by simp [hx])⟩
    intro hxe
    exact hN.1 (hxe ▸ hx)

theorem runWorkersSeq_res (cli : Cli) (containers : List String) :
    ∀ (cfgs : List Cfg) (q : Oracle),
    (runWorkersSeq cli containers cfgs q).1 = .ok (some 0) ∨
    (runWorkersSeq cli containers cfgs q).1 = .ok none := by
  intro cfgs
  induction cfgs with
  | nil => intro q; left; rfl
  | cons c rest ih =>
    intro q
    unfold runWorkersSeq
    rcases hw : runWorker c cli containers q with ⟨r, q1, d1⟩
    cases r with
    | ok a =>
      rcases hr : runWorkersSeq cli containers rest q1 with ⟨r2, q2, d2⟩
      have := ih q1
      rw [hr] at this
      simpa [hr] using this
    | error e => right; rfl

/-- C3 — Duplicate-name and duplicate-image validation: (1) any declared set
with two specs sharing a name is rejected with exit code 1 in both modes;
(2) for a set with pairwise distinct names, sharing an image is rejected
with exit code 1 exactly when concurrent mode (`-t`) is selected; (3) when
validation rejects, the whole run stops before any external call is made
(empty trace, untouched collaborators); (4) when validation passes, the
process exit code is 0 whenever every worker reaches terminal status (it is
never 1 — per-container failures are only reported), and no exit code is
produced at all when a worker dies (the coordinator polls forever). -/
theorem duplicate_validation_and_exit_code :
    (∀ (cfgs : List Cfg) (t : Bool), ¬ (cfgs.map Cfg.name).Nodup →
      starter_check cfgs t = some 1) ∧
    (∀ (cfgs : List Cfg) (t : Bool), (cfgs.map Cfg.name).Nodup →
      ¬ (cfgs.map Cfg.image).Nodup →
      (starter_check cfgs t = some 1 ↔ t = true)) ∧
    (∀ (cfgs : List Cfg) (cli : Cli) (containers : List String) (q : Oracle),
      starter_check cfgs cli.t = some 1 →
      mainRun cfgs cli containers q = (.ok (some 1), q, [])) ∧
    (∀ (cfgs : List Cfg) (cli : Cli) (containers : List String) (q : Oracle),
      starter_check cfgs cli.t = none →
      (mainRun cfgs cli containers q).1 = .ok (some 0) ∨
      (mainRun cfgs cli containers q).1 = .ok none) := by
  refine ⟨?_, ?_, ?_, ?_⟩
  · intro cfgs t hdup
    rcases checkGo_range t cfgs [] [] with h | h
    · exact absurd (checkGo_none_names t cfgs [] [] h).1 hdup
    · exact h
  · intro cfgs t hN hdup
    cases t with
    | false =>
      simp only [Bool.false_eq_true, iff_false]
      intro hsome
      have h0 : checkGo false cfgs [] [] = none :=
        checkGo_false_none cfgs [] [] hN (by simp)
      have h1 : checkGo false cfgs [] [] = some 1 := hsome
      rw [h0] at h1
      exact Option.noConfusion h1
    | true =>
      simp only [iff_true]
      rcases checkGo_range true cfgs [] [] with h | h
      · exact absurd (checkGo_none_images cfgs [] [] h).1 hdup
      · exact h
  · intro cfgs cli containers q h
    unfold mainRun
    rw [h]
    rfl
  · intro cfgs cli containers q h
    unfold mainRun
    rw [h]
    exact runWorkersSeq_res cli containers cfgs q

/-- Witness for C3: both duplicate kinds at concrete declared sets — a
duplicated name rejected without `-t`, a duplicated image rejected with
`-t`, the rejection leaving collaborators untouched, and an accepted set
exiting 0 (or hanging) but never 1. -/
theorem duplicate_validation_and_exit_code_witness :
    starter_check [exCfg, exCfg] false = some 1 ∧
    (starter_check [exCfg, exCfg2] true = some 1 ↔ true = true) ∧
    mainRun [exCfg, exCfg] exCliUpdate [] exOracleEmpty
      = (.ok (some 1), exOracleEmpty, []) ∧
    ((mainRun [exCfg] exCliUpdate [] exOracleNoHeader).1 = .ok (some 0) ∨
     (mainRun [exCfg] exCliUpdate [] exOracleNoHeader).1 = .ok none) := by
  refine ⟨?_, ?_, ?_, ?_⟩
  · exact duplicate_validation_and_exit_code.1 [exCfg, exCfg] false (by decide)
  · exact duplicate_validation_and_exit_code.2.1 [exCfg, exCfg2] true
      (by decide) (by decide)
  · exact duplicate_validation_and_exit_code.2.2.1 [exCfg, exCfg] exCliUpdate []
      exOracleEmpty (by decide)
  · exact duplicate_validation_and_exit_code.2.2.2 [exCfg] exCliUpdate []
      exOracleNoHeader (by decide)

/-! ## Pointwise evaluation lemmas -/

theorem bind_apply (x : WM α) (f : α → WM β) (q : Oracle) :
    (x >>= f) q = match x q with
      | (.ok a, q1, d1) => (match f a q1 with | (r, q2, d2) => (r, q2, d1 ++ d2))
      | (.error e, q1, d1) => (.error e, q1, d1) := rfl

theorem docker_images_sha256_spec {q : Oracle} {m : List (String × String)}
    (hrc : (q.imagesShaQ.headD dfltRes).returncode = 0)
    (hp : parseImages (q.imagesShaQ.headD dfltRes).stdout = .ok m) :
    docker_images_sha256 q =
      (.ok m, { q with imagesShaQ := q.imagesShaQ.tail }, [Event.imagesSha256]) := by
  unfold docker_images_sha256
  rw [List.headD_eq_head?_getD] at hrc hp
  simp [Bind.bind, WM.bind, emit, takeImagesSha, hrc, hp, ofExcept, WM.pure]

theorem worker_update_core_fail {cfg : Cfg} {q : Oracle} {d : String}
    {rt : String × String} (hsplit : rsplit1 ':' cfg.image = some rt)
    (hrem : remote_sha_of (q.remoteQ.headD dfltRemote) = .ok none) :
    worker_update_core cfg (some d) q =
      (.ok false, { q with remoteQ := q.remoteQ.tail }, [Event.remoteSha cfg.image]) := by
  unfold worker_update_core docker_remote_sha256
  rw [hsplit]
  rw [List.headD_eq_head?_getD] at hrem
  simp [Bind.bind, WM.bind, emit, takeRemote, ofExcept, hrem, WM.pure]

theorem worker_update_some_fail {cfg : Cfg} {q : Oracle} {d : String}
    {rt : String × String} (hd : d ≠ "") (hsplit : rsplit1 ':' cfg.image = some rt)
    (hrem : remote_sha_of (q.remoteQ.headD dfltRemote) = .ok none) :
    worker_update cfg (some d) q =
      (.ok false, { q with remoteQ := q.remoteQ.tail }, [Event.remoteSha cfg.image]) := by
  unfold worker_update
  rw [bind_apply]
  have hres : worker_update_resolve cfg (some d) q = (.ok (some d), q, []) := by
    unfold worker_update_resolve
    simp [hd, WM.pure]
  rw [hres]
  dsimp only
  rw [worker_update_core_fail hsplit hrem]
  simp

theorem docker_images_id_oracle (q : Oracle) :
    (docker_images_id q).2.1 = { q with imagesIdQ := q.imagesIdQ.tail } := by
  unfold docker_images_id
  by_cases h : (q.imagesIdQ.headD dfltRes).returncode = 0
  · rw [List.headD_eq_head?_getD] at h
    cases hp : parseImages (q.imagesIdQ.head?.getD dfltRes).stdout with
    | ok m => simp [Bind.bind, WM.bind, emit, takeImagesId, h, hp, ofExcept, WM.pure]
    | error e =>
      simp [Bind.bind, WM.bind, emit, takeImagesId, h, hp, ofExcept, throwW]
  · rw [List.headD_eq_head?_getD] at h
    simp [Bind.bind, WM.bind, emit, takeImagesId, h, throwW]

/-- C4 counterexample — with the build flag (`-b`) set, a failed remote
digest fetch (auth endpoint answered 500, `_docker_remote_sha256` returned
`None`, `_update` returned `False`) does not abort the upgrade:
`self._update(old_sha) or self._cli.b` is true, so the worker proceeds to
build, run and image deletion — all mutations — after the fetch failure. -/
theorem upgrade_builds_despite_fetch_failure :
    traceOf (runWorker exCfg exCliUpgradeB []) exOracleFetchFailBuild =
      [.imagesSha256, .imagesId, .remoteSha "repo:tag", .build "repo:tag" "" "" true,
       .runC ["-d", "--restart=always", "--name", "c1", "repo:tag"] true,
       .repoIds, .rmiI "abc123" true] ∧
    (traceOf (runWorker exCfg exCliUpgradeB []) exOracleFetchFailBuild).any
      Event.isMut = true := by
  exact ⟨by decide, by decide⟩

/-- C4 (amended) — whenever the remote digest fetch fails in a way the code
handles by returning `None` (transport error, non-success status, missing or
empty auth token, absent headers), for an image whose local digest exists:
an explicit update returns `False` (reported failure) having performed only
reads, and an upgrade without the build flag aborts before any mutating
call; with the build flag set the upgrade proceeds despite the failure (see
the counterexample), and a response missing both digest headers raises
instead of reporting. -/
theorem fetch_failure_aborts_without_build_flag :
    (∀ (cfg : Cfg) (q : Oracle) (m : List (String × String)) (d : String)
      (rt : String × String),
      (q.imagesShaQ.headD dfltRes).returncode = 0 →
      parseImages (q.imagesShaQ.headD dfltRes).stdout = .ok m →
      pyDictGet m cfg.image = some d →
      rsplit1 ':' cfg.image = some rt →
      remote_sha_of (q.remoteQ.headD dfltRemote) = .ok none →
      resOf (worker_update cfg none) q = .ok false ∧
      traceOf (worker_update cfg none) q = [.imagesSha256, .remoteSha cfg.image]) ∧
    (∀ (cfg : Cfg) (cli : Cli) (containers : List String) (q : Oracle)
      (m : List (String × String)) (d : String) (rt : String × String),
      cli.b = false →
      (q.imagesShaQ.headD dfltRes).returncode = 0 →
      parseImages (q.imagesShaQ.headD dfltRes).stdout = .ok m →
      pyDictGet m cfg.image = some d →
      d ≠ "" →
      rsplit1 ':' cfg.image = some rt →
      remote_sha_of (q.remoteQ.headD dfltRemote) = .ok none →
      (traceOf (worker_upgrade cfg cli containers) q).all nonMut = true) := by
  constructor
  · intro cfg q m d rt hrc hp hd hsplit hrem
    have hfull : worker_update cfg none q =
        (.ok false,
          { q with imagesShaQ := q.imagesShaQ.tail, remoteQ := q.remoteQ.tail },
          [Event.imagesSha256, Event.remoteSha cfg.image]) := by
      unfold worker_update
      rw [bind_apply]
      have hres : worker_update_resolve cfg none q =
          (.ok (some d),
            { q with imagesShaQ := q.imagesShaQ.tail }, [Event.imagesSha256]) := by
        show (docker_images_sha256 >>= fun m => WM.pure (pyDictGet m cfg.image)) q = _
        rw [bind_apply, docker_images_sha256_spec hrc hp]
        simp [WM.pure, hd]
      rw [hres]
      dsimp only
      have hcore := @worker_update_core_fail cfg
        { q with imagesShaQ := q.imagesShaQ.tail } d rt hsplit hrem
      rw [hcore]
      rfl
    exact ⟨by rw [resOf, hfull], by rw [traceOf, hfull]⟩
  · intro cfg cli containers q m d rt hb hrc hp hd hdne hsplit hrem
    unfold traceOf worker_upgrade
    rw [bind_trace, docker_images_sha256_spec hrc hp]
    simp only [hd]
    set q1 : Oracle := { q with imagesShaQ := q.imagesShaQ.tail } with hq1
    rw [bind_trace]
    have hidAll : ∀ q0 : Oracle, ((docker_images_id q0).2.2).all nonMut = true :=
      traceAll_docker_images_id rfl
    rcases hr2 : (docker_images_id q1).1 with e2 | ids
    · simp [List.all_append, hidAll q1, nonMut, Event.isMut]
    · simp only []
      rcases pyDictGet ids cfg.image with _ | old_id
      · simp [List.all_append, hidAll q1, WM.pure, nonMut, Event.isMut]
      · cases hguard : worker_allow_source_change cli d with
        | false => simp [List.all_append, hguard, hidAll q1, WM.pure, nonMut, Event.isMut]
        | true =>
          simp only [hguard, Bool.not_true]
          rw [if_neg (by simp)]
          rw [bind_trace]
          have hq2rem : ((docker_images_id q1).2.1).remoteQ = q.remoteQ := by
            rw [docker_images_id_oracle]
          have hupd : worker_update cfg (some d) ((docker_images_id q1).2.1) =
              (.ok false,
                { (docker_images_id q1).2.1 with
                    remoteQ := ((docker_images_id q1).2.1).remoteQ.tail },
                [Event.remoteSha cfg.image]) :=
            worker_update_some_fail hdne hsplit (by rw [hq2rem]; exact hrem)
          rw [hupd]
          simp only []
          rw [if_pos (by simp [hb])]
          simp [List.all_append, hidAll q1, WM.pure, nonMut, Event.isMut]

/-- Witness for C4 at the concrete scenario: auth endpoint answers 500 for
image `repo:tag` whose local digest is `sha256:aaa` — update reports failure
with a read-only trace, and the upgrade without `-b` performs no mutating
call. -/
theorem fetch_failure_aborts_without_build_flag_witness :
    (resOf (worker_update exCfg none) exOracleFetchFail = .ok false ∧
      traceOf (worker_update exCfg none) exOracleFetchFail =
        [.imagesSha256, .remoteSha "repo:tag"]) ∧
    (traceOf (worker_upgrade exCfg exCliUpgrade []) exOracleFetchFail).all nonMut
      = true := by
  constructor
  · exact fetch_failure_aborts_without_build_flag.1 exCfg exOracleFetchFail
      [("repo:tag", "sha256:aaa")] "sha256:aaa" ("repo", "tag")
      (by decide) (by decide) (by decide) (by decide) (by decide)
  · exact fetch_failure_aborts_without_build_flag.2 exCfg exCliUpgrade []
      exOracleFetchFail [("repo:tag", "sha256:aaa")] "sha256:aaa" ("repo", "tag")
      rfl (by decide) (by decide) (by decide) (by decide) (by decide) (by decide)

theorem docker_images_id_spec {q : Oracle} {m : List (String × String)}
    (hrc : (q.imagesIdQ.headD dfltRes).returncode = 0)
    (hp : parseImages (q.imagesIdQ.headD dfltRes).stdout = .ok m) :
    docker_images_id q =
      (.ok m, { q with imagesIdQ := q.imagesIdQ.tail }, [Event.imagesId]) := by
  unfold docker_images_id
  rw [List.headD_eq_head?_getD] at hrc hp
  simp [Bind.bind, WM.bind, emit, takeImagesId, hrc, hp, ofExcept, WM.pure]

theorem worker_update_some_trace {cfg : Cfg} {q : Oracle} {d : String}
    {rt : String × String} (hd : d ≠ "") (hsplit : rsplit1 ':' cfg.image = some rt) :
    traceOf (worker_update cfg (some d)) q = [Event.remoteSha cfg.image] := by
  unfold traceOf worker_update
  rw [bind_trace]
  have hres : worker_update_resolve cfg (some d) q = (.ok (some d), q, []) := by
    unfold worker_update_resolve
    simp [hd, WM.pure]
  rw [hres]
  dsimp only
  unfold worker_update_core docker_remote_sha256
  rw [hsplit]
  cases hr : remote_sha_of (q.remoteQ.headD dfltRemote) with
  | error e =>
    rw [List.headD_eq_head?_getD] at hr
    simp [Bind.bind, WM.bind, emit, takeRemote, ofExcept, hr, throwW, WM.pure]
  | ok nw =>
    rw [List.headD_eq_head?_getD] at hr
    cases nw with
    | none => simp [Bind.bind, WM.bind, emit, takeRemote, ofExcept, hr, WM.pure]
    | some n =>
      by_cases he : d = n <;>
        simp [Bind.bind, WM.bind, emit, takeRemote, ofExcept, hr, WM.pure, he]

/-- C5 — SourceGuard: (1) the pure guard allows an upgrade exactly when the
provenance inferred from the current digest (`<none>` sentinel ⇒ locally
built, anything else ⇒ registry pull) matches the provenance implied by the
build flag, or the force flag is set; (2) with digest `<none>`, a non-build
upgrade without force stops right after the two listings — the worker
reaches its terminal status having performed no mutating call and no
further call at all; (3) the same upgrade with force proceeds into the
staleness check (the remote digest fetch is performed). -/
theorem source_guard_blocks_and_force_proceeds :
    (∀ (cli : Cli) (old : String),
      worker_allow_source_change cli old = true ↔
        ((old = "<none>" ↔ cli.b = true) ∨ cli.f = true)) ∧
    (∀ (cfg : Cfg) (cli : Cli) (containers : List String) (q : Oracle)
      (m mi : List (String × String)) (idv : String),
      cli.b = false → cli.f = false →
      (q.imagesShaQ.headD dfltRes).returncode = 0 →
      parseImages (q.imagesShaQ.headD dfltRes).stdout = .ok m →
      pyDictGet m cfg.image = some "<none>" →
      (q.imagesIdQ.headD dfltRes).returncode = 0 →
      parseImages (q.imagesIdQ.headD dfltRes).stdout = .ok mi →
      pyDictGet mi cfg.image = some idv →
      worker_upgrade cfg cli containers q =
        (.ok (),
         { q with imagesShaQ := q.imagesShaQ.tail, imagesIdQ := q.imagesIdQ.tail },
         [Event.imagesSha256, Event.imagesId])) ∧
    (∀ (cfg : Cfg) (cli : Cli) (containers : List String) (q : Oracle)
      (m mi : List (String × String)) (idv : String) (rt : String × String),
      cli.b = false → cli.f = true →
      (q.imagesShaQ.headD dfltRes).returncode = 0 →
      parseImages (q.imagesShaQ.headD dfltRes).stdout = .ok m →
      pyDictGet m cfg.image = some "<none>" →
      (q.imagesIdQ.headD dfltRes).returncode = 0 →
      parseImages (q.imagesIdQ.headD dfltRes).stdout = .ok mi →
      pyDictGet mi cfg.image = some idv →
      rsplit1 ':' cfg.image = some rt →
      Event.remoteSha cfg.image ∈ traceOf (worker_upgrade cfg cli containers) q) := by
  refine ⟨?_, ?_, ?_⟩
  · intro cli old
    cases hb : cli.b <;> cases hf : cli.f <;>
      by_cases h : old = "<none>" <;>
        simp [worker_allow_source_change, h, hb, hf]
  · intro cfg cli containers q m mi idv hb hf hrc hp hd hrci hpi hdi
    unfold worker_upgrade
    rw [bind_apply, docker_images_sha256_spec hrc hp]
    dsimp only
    rw [hd]
    dsimp only
    have hids := @docker_images_id_spec
      { q with imagesShaQ := q.imagesShaQ.tail } mi hrci hpi
    rw [bind_apply, hids]
    dsimp only
    rw [hdi]
    dsimp only
    have hg : worker_allow_source_change cli "<none>" = false := by
      simp [worker_allow_source_change, hb, hf]
    rw [hg]
    rfl
  · intro cfg cli containers q m mi idv rt hb hf hrc hp hd hrci hpi hdi hsplit
    unfold traceOf worker_upgrade
    rw [bind_trace, docker_images_sha256_spec hrc hp]
    dsimp only
    rw [hd]
    dsimp only
    rw [bind_trace]
    have hids := @docker_images_id_spec
      { q with imagesShaQ := q.imagesShaQ.tail } mi hrci hpi
    rw [hids]
    dsimp only
    rw [hdi]
    dsimp only
    have hg : worker_allow_source_change cli "<none>" = true := by
      simp [worker_allow_source_change, hb, hf]
    rw [hg]
    rw [if_neg (by simp)]
    rw [bind_trace]
    have hupd := @worker_update_some_trace cfg
      { q with imagesShaQ := q.imagesShaQ.tail, imagesIdQ := q.imagesIdQ.tail }
      "<none>" rt (by simp) hsplit
    rw [traceOf] at hupd
    rw [hupd]
    simp

/-- Witness for C5 at the concrete scenario: image `repo:tag` with current
digest `<none>` and ID `abc123`; without flags the upgrade stops after the
two listings, with `-f` it reaches the remote digest fetch. -/
theorem source_guard_blocks_and_force_proceeds_witness :
    (worker_allow_source_change exCliUpgrade "<none>" = true ↔
      (("<none>" = "<none>" ↔ exCliUpgrade.b = true) ∨ exCliUpgrade.f = true)) ∧
    worker_upgrade exCfg exCliUpgrade [] exOracleBuiltImage =
      (.ok (), { exOracleBuiltImage with imagesShaQ := [], imagesIdQ := [] },
       [Event.imagesSha256, Event.imagesId]) ∧
    Event.remoteSha "repo:tag" ∈
      traceOf (worker_upgrade exCfg exCliUpgradeF []) exOracleBuiltImage := by
  refine ⟨?_, ?_, ?_⟩
  · exact source_guard_blocks_and_force_proceeds.1 exCliUpgrade "<none>"
  · exact source_guard_blocks_and_force_proceeds.2.1 exCfg exCliUpgrade []
      exOracleBuiltImage [("repo:tag", "<none>")] [("repo:tag", "abc123")] "abc123"
      rfl rfl (by decide) (by decide) (by decide) (by decide) (by decide) (by decide)
  · exact source_guard_blocks_and_force_proceeds.2.2 exCfg exCliUpgradeF []
      exOracleBuiltImage [("repo:tag", "<none>")] [("repo:tag", "abc123")] "abc123"
      ("repo", "tag") rfl rfl (by decide) (by decide) (by decide) (by decide)
      (by decide) (by decide) (by decide)

theorem docker_images_sha256_trace (q : Oracle) :
    (docker_images_sha256 q).2.2 = [Event.imagesSha256] := by
  unfold docker_images_sha256
  by_cases h : (q.imagesShaQ.headD dfltRes).returncode = 0
  · rw [List.headD_eq_head?_getD] at h
    cases hp : parseImages (q.imagesShaQ.head?.getD dfltRes).stdout with
    | ok m => simp [Bind.bind, WM.bind, emit, takeImagesSha, h, hp, ofExcept, WM.pure]
    | error e =>
      simp [Bind.bind, WM.bind, emit, takeImagesSha, h, hp, ofExcept, throwW]
  · rw [List.headD_eq_head?_getD] at h
    simp [Bind.bind, WM.bind, emit, takeImagesSha, h, throwW]

theorem worker_rmi_none_trace (cfg : Cfg) (q : Oracle) :
    ∃ rest, traceOf (worker_rmi cfg none) q = Event.imagesSha256 :: rest := by
  unfold traceOf worker_rmi
  rw [bind_trace]
  have h1 : worker_rmi_known_id none q = (.ok false, q, []) := rfl
  rw [h1]
  dsimp only
  rw [bind_trace]
  have h2 : worker_rmi_tracked cfg false q =
      ((docker_images_sha256 >>= fun m => WM.pure (pyDictContains m cfg.image)) q) := by
    rfl
  rw [h2]
  have htr : ((docker_images_sha256 >>= fun m =>
      WM.pure (pyDictContains m cfg.image)) q).2.2 = [Event.imagesSha256] := by
    rw [bind_trace, docker_images_sha256_trace]
    rcases (docker_images_sha256 q).1 with e | m <;> simp [WM.pure]
  rw [htr]
  exact ⟨_, rfl⟩

theorem worker_stop_spec_present {cfg : Cfg} {cont : List String} {q : Oracle}
    {b : Bool} (hc : cont.contains cfg.name = true)
    (hb : q.stopQ.headD false = b) :
    worker_stop cfg cont q =
      (.ok b, { q with stopQ := q.stopQ.tail }, [Event.stopC cfg.name b]) := by
  have hm : cfg.name ∈ cont := by simpa [List.elem_iff] using hc
  unfold worker_stop docker_stop
  rw [List.headD_eq_head?_getD] at hb
  cases b <;> simp [hm, hb, Bind.bind, WM.bind, WM.pure, emit, takeStop]

theorem worker_remove_container_spec_present {cfg : Cfg} {cont : List String}
    {q : Oracle} {b : Bool} (hc : cont.contains cfg.name = true)
    (hb : q.rmQ.headD false = b) :
    worker_remove_container cfg cont q =
      (.ok b, { q with rmQ := q.rmQ.tail }, [Event.rmC cfg.name b]) := by
  have hm : cfg.name ∈ cont := by simpa [List.elem_iff] using hc
  unfold worker_remove_container docker_rm
  rw [List.headD_eq_head?_getD] at hb
  cases b <;> simp [hm, hb, Bind.bind, WM.bind, WM.pure, emit, takeRm]

/-- C7 counterexample — concrete remove execution in which the failing
`docker stop` prevents the container-removal sub-step: the container is in
the snapshot and `docker stop` fails, so `self._stop() and self.__remove()`
short-circuits and no `docker rm` is ever issued; only the image-removal
sub-step still runs.  The claim that a failing sub-step does not prevent
the later sub-steps is therefore false for stop → remove-container. -/
theorem remove_stop_failure_skips_container_removal :
    traceOf (runWorker exCfg exCliRemove ["c1"]) exOracleRemoveStopFail =
      [.stopC "c1" false, .imagesSha256, .rmiI "repo:tag" true] ∧
    (traceOf (runWorker exCfg exCliRemove ["c1"]) exOracleRemoveStopFail).any
      Event.isRm = false := by
  exact ⟨by decide, by decide⟩

/-- C7 (amended) — the remove action performs stop, then container removal,
then image removal in that order, with this continuation discipline: a
failing stop skips the container-removal sub-step (Python `and`
short-circuit) but the image-removal sub-step is still attempted, and it
never issues a container removal; a failing container removal does not
prevent the image-removal sub-step either. -/
theorem remove_substep_continuation :
    (∀ (cfg : Cfg) (containers : List String) (q : Oracle),
      containers.contains cfg.name = true → q.stopQ.headD false = false →
      ∃ rest,
        traceOf (worker_remove cfg containers) q =
          Event.stopC cfg.name false :: Event.imagesSha256 :: rest ∧
        (Event.stopC cfg.name false :: Event.imagesSha256 :: rest).all
          (fun e => !e.isRm) = true) ∧
    (∀ (cfg : Cfg) (containers : List String) (q : Oracle),
      containers.contains cfg.name = true → q.stopQ.headD false = true →
      q.rmQ.headD false = false →
      ∃ rest,
        traceOf (worker_remove cfg containers) q =
          Event.stopC cfg.name true :: Event.rmC cfg.name false ::
            Event.imagesSha256 :: rest) := by
  constructor
  · intro cfg containers q hc hs
    unfold traceOf worker_remove
    rw [bind_trace, worker_stop_spec_present hc hs]
    dsimp only
    rw [bind_trace]
    have hmid : worker_remove_mid cfg containers false
        { q with stopQ := q.stopQ.tail } =
        (.ok true, { q with stopQ := q.stopQ.tail }, []) := rfl
    rw [hmid]
    dsimp only
    obtain ⟨rest, hrest⟩ :=
      worker_rmi_none_trace cfg { q with stopQ := q.stopQ.tail }
    rw [traceOf] at hrest
    rw [hrest]
    refine ⟨rest, by simp, ?_⟩
    have hall : ∀ q0 : Oracle,
        ((worker_rmi cfg none q0).2.2).all (fun e => !e.isRm) = true :=
      traceAll_worker_rmi rfl rfl fun t b => rfl
    have := hall { q with stopQ := q.stopQ.tail }
    rw [hrest] at this
    simpa [Event.isRm] using this
  · intro cfg containers q hc hs hr
    unfold traceOf worker_remove
    rw [bind_trace, worker_stop_spec_present hc hs]
    dsimp only
    rw [bind_trace]
    have hmid := @worker_remove_container_spec_present cfg containers
      { q with stopQ := q.stopQ.tail } false hc hr
    have hmid2 : worker_remove_mid cfg containers true
        { q with stopQ := q.stopQ.tail } =
        (.ok false, { q with stopQ := q.stopQ.tail, rmQ := q.rmQ.tail },
         [Event.rmC cfg.name false]) := by
      unfold worker_remove_mid
      rw [if_pos rfl, hmid]
    rw [hmid2]
    dsimp only
    obtain ⟨rest, hrest⟩ :=
      worker_rmi_none_trace cfg { q with stopQ := q.stopQ.tail, rmQ := q.rmQ.tail }
    rw [traceOf] at hrest
    rw [hrest]
    exact ⟨rest, by simp⟩

/-- Witness for C7: the two continuation shapes at concrete collaborators —
stop failure (no container removal, image removal still attempted) and
container-removal failure (image removal still attempted). -/
theorem remove_substep_continuation_witness :
    (∃ rest,
      traceOf (worker_remove exCfg ["c1"]) exOracleRemoveStopFail =
        Event.stopC "c1" false :: Event.imagesSha256 :: rest ∧
      (Event.stopC "c1" false :: Event.imagesSha256 :: rest).all
        (fun e => !e.isRm) = true) ∧
    (∃ rest,
      traceOf (worker_remove exCfg ["c1"]) exOracleRmFail =
        Event.stopC "c1" true :: Event.rmC "c1" false ::
          Event.imagesSha256 :: rest) := by
  constructor
  · exact remove_substep_continuation.1 exCfg ["c1"] exOracleRemoveStopFail
      (by decide) (by decide)
  · exact remove_substep_continuation.2 exCfg ["c1"] exOracleRmFail
      (by decide) (by decide) (by decide)

theorem bind_apply' (x : WM α) (f : α → WM β) (q : Oracle) :
    WM.bind x f q = match x q with
      | (.ok a, q1, d1) => (match f a q1 with | (r, q2, d2) => (r, q2, d1 ++ d2))
      | (.error e, q1, d1) => (.error e, q1, d1) := rfl

theorem worker_stop_spec_absent {cfg : Cfg} {cont : List String} {q : Oracle}
    (hc : cont.contains cfg.name = false) :
    worker_stop cfg cont q = (.ok true, q, []) := by
  have hm : cfg.name ∉ cont := by simpa using hc
  unfold worker_stop
  simp [hm, WM.pure]

theorem worker_remove_container_spec_absent {cfg : Cfg} {cont : List String}
    {q : Oracle} (hc : cont.contains cfg.name = false) :
    worker_remove_container cfg cont q = (.ok true, q, []) := by
  have hm : cfg.name ∉ cont := by simpa using hc
  unfold worker_remove_container
  simp [hm, WM.pure]

theorem worker_rmi_none_spec {cfg : Cfg} {q : Oracle} {m : List (String × String)}
    {b : Bool} (hrc : (q.imagesShaQ.headD dfltRes).returncode = 0)
    (hp : parseImages (q.imagesShaQ.headD dfltRes).stdout = .ok m)
    (hcont : pyDictContains m cfg.image = true)
    (hb : q.rmiQ.headD false = b) :
    worker_rmi cfg none q =
      (.ok b, { q with imagesShaQ := q.imagesShaQ.tail, rmiQ := q.rmiQ.tail },
       [Event.imagesSha256, Event.rmiI cfg.image b]) := by
  unfold worker_rmi
  rw [bind_apply]
  have h1 : worker_rmi_known_id none q = (.ok false, q, []) := rfl
  rw [h1]
  dsimp only
  rw [bind_apply']
  have h2 : worker_rmi_tracked cfg false q =
      (.ok true, { q with imagesShaQ := q.imagesShaQ.tail },
       [Event.imagesSha256]) := by
    unfold worker_rmi_tracked
    rw [if_neg (by simp)]
    show (docker_images_sha256 >>= fun m => WM.pure (pyDictContains m cfg.image)) q
      = _
    rw [bind_apply, docker_images_sha256_spec hrc hp]
    simp [WM.pure, hcont]
  rw [h2]
  dsimp only
  rw [if_pos rfl]
  have htarget : rmiTarget cfg none = cfg.image := rfl
  unfold docker_rmi
  rw [List.headD_eq_head?_getD] at hb
  cases b <;>
    simp [Bind.bind, WM.bind, WM.pure, emit, takeRmi, hb, htarget]

/-- C8 counterexample — concrete purge execution in which a failed image
removal prevents the data deletion: the image is tracked and `docker rmi`
fails, so `_remove` returns `False` and `_purge` never calls
`shutil.rmtree` — the data tree survives although the claim says it is
deleted even when remove had partial failures. -/
theorem purge_skips_rmtree_on_rmi_failure :
    traceOf (runWorker exCfg exCliPurge []) exOracleRmiFail =
      [.imagesSha256, .rmiI "repo:tag" false] ∧
    (traceOf (runWorker exCfg exCliPurge []) exOracleRmiFail).any
      Event.isRmtree = false := by
  exact ⟨by decide, by decide⟩

/-- C8 (amended) — purge runs the remove action and then recursively deletes
the `data_path` tree exactly when the final image-removal step reported
success: failures of the stop or container-removal sub-steps do not prevent
the deletion (part 1: stop fails, the tree is still deleted and the worker
reports success — the deletion itself cannot fail, `ignore_errors=True`, so
a missing `data_path` is treated as already satisfied), but a failed image
removal does prevent it (part 2: no `rmtree` call at all). -/
theorem purge_rmtree_condition :
    (∀ (cfg : Cfg) (containers : List String) (q : Oracle)
      (m : List (String × String)),
      containers.contains cfg.name = true →
      q.stopQ.headD false = false →
      (q.imagesShaQ.headD dfltRes).returncode = 0 →
      parseImages (q.imagesShaQ.headD dfltRes).stdout = .ok m →
      pyDictContains m cfg.image = true →
      q.rmiQ.headD false = true →
      resOf (worker_purge cfg containers) q = .ok () ∧
      traceOf (worker_purge cfg containers) q =
        [Event.stopC cfg.name false, Event.imagesSha256,
         Event.rmiI cfg.image true, Event.rmtree cfg.data_path]) ∧
    (∀ (cfg : Cfg) (containers : List String) (q : Oracle)
      (m : List (String × String)),
      containers.contains cfg.name = false →
      (q.imagesShaQ.headD dfltRes).returncode = 0 →
      parseImages (q.imagesShaQ.headD dfltRes).stdout = .ok m →
      pyDictContains m cfg.image = true →
      q.rmiQ.headD false = false →
      traceOf (worker_purge cfg containers) q =
        [Event.imagesSha256, Event.rmiI cfg.image false] ∧
      (traceOf (worker_purge cfg containers) q).any Event.isRmtree = false) := by
  constructor
  · intro cfg containers q m hc hs hrc hp hcont hb
    have hfull : worker_purge cfg containers q =
        (.ok (),
         { q with
             stopQ := q.stopQ.tail
             imagesShaQ := q.imagesShaQ.tail
             rmiQ := q.rmiQ.tail },
         [Event.stopC cfg.name false, Event.imagesSha256,
          Event.rmiI cfg.image true, Event.rmtree cfg.data_path]) := by
      unfold worker_purge worker_remove
      rw [bind_apply]
      rw [bind_apply]
      rw [worker_stop_spec_present hc hs]
      dsimp only
      rw [bind_apply']
      have hmid : worker_remove_mid cfg containers false
          { q with stopQ := q.stopQ.tail } =
          (.ok true, { q with stopQ := q.stopQ.tail }, []) := rfl
      rw [hmid]
      dsimp only
      have hrmi := @worker_rmi_none_spec cfg { q with stopQ := q.stopQ.tail } m
        true hrc hp hcont hb
      rw [hrmi]
      dsimp only
      rw [if_pos rfl]
      rfl
    exact ⟨by rw [resOf, hfull], by rw [traceOf, hfull]⟩
  · intro cfg containers q m hc hrc hp hcont hb
    have hfull : worker_purge cfg containers q =
        (.ok (),
         { q with imagesShaQ := q.imagesShaQ.tail, rmiQ := q.rmiQ.tail },
         [Event.imagesSha256, Event.rmiI cfg.image false]) := by
      unfold worker_purge worker_remove
      rw [bind_apply]
      rw [bind_apply]
      rw [worker_stop_spec_absent hc]
      dsimp only
      rw [bind_apply']
      have hmid : worker_remove_mid cfg containers true q =
          worker_remove_container cfg containers q := by
        unfold worker_remove_mid
        rw [if_pos rfl]
      rw [hmid, worker_remove_container_spec_absent hc]
      dsimp only
      have hrmi := @worker_rmi_none_spec cfg q m false hrc hp hcont hb
      rw [hrmi]
      dsimp only
      rw [if_neg (by simp)]
      rfl
    constructor
    · rw [traceOf, hfull]
    · rw [traceOf, hfull]
      rfl

/-- Witness for C8 at concrete collaborators: a purge whose stop failed
still deletes the data tree when the image removal succeeds, and a purge
whose image removal failed does not delete it. -/
theorem purge_rmtree_condition_witness :
    (resOf (worker_purge exCfg ["c1"]) exOraclePurgeStopFail = .ok () ∧
      traceOf (worker_purge exCfg ["c1"]) exOraclePurgeStopFail =
        [Event.stopC "c1" false, Event.imagesSha256,
         Event.rmiI "repo:tag" true, Event.rmtree "/d"]) ∧
    (traceOf (worker_purge exCfg []) exOracleRmiFail =
        [Event.imagesSha256, Event.rmiI "repo:tag" false] ∧
      (traceOf (worker_purge exCfg []) exOracleRmiFail).any Event.isRmtree
        = false) := by
  constructor
  · exact purge_rmtree_condition.1 exCfg ["c1"] exOraclePurgeStopFail
      [("repo:tag", "sha256:aaa")] (by decide) (by decide) (by decide)
      (by decide) (by decide) (by decide)
  · exact purge_rmtree_condition.2 exCfg [] exOracleRmiFail
      [("repo:tag", "sha256:aaa")] (by decide) (by decide) (by decide)
      (by decide) (by decide)

theorem docker_run_spec (args : List String) (q : Oracle) :
    docker_run args q =
      (.ok (q.runQ.headD false), { q with runQ := q.runQ.tail },
       [Event.runC args (q.runQ.headD false)]) := rfl

/-- C10 counterexample — concrete start execution of a spec with one
declared volume `sub → /c`: the engine creates only the base `data_path`
(`/d`) and never the volume's host directory `/d/sub`, although the run
call that bind-mounts `/d/sub` is issued.  The claim that every volume
entry's subdirectory is created first is therefore false. -/
theorem run_does_not_create_volume_subdir :
    traceOf (runWorker exCfgVol exCliStart []) exOracleStart =
      [.imagesSha256, .pull "repo:tag" true, .makedirs "/d",
       .runC ["-d", "-v", "/d/sub:/c", "--restart=always", "--name", "c1",
         "repo:tag"] true] ∧
    Event.makedirs "/d/sub" ∉
      traceOf (runWorker exCfgVol exCliStart []) exOracleStart := by
  exact ⟨by decide, by decide⟩

/-- C10 (amended) — when the volumes mapping is non-empty, the engine
creates exactly one directory, the base `data_path` (with `exist_ok`, via a
single `os.makedirs` call), immediately before issuing the run call; the
per-volume subdirectories themselves are never created.  With no volumes
declared, no directory is created at all. -/
theorem run_creates_base_data_path (cfg : Cfg) (cli : Cli) (q : Oracle) :
    (cfg.v ≠ [] →
      traceOf (worker_run cfg cli) q =
        [Event.makedirs cfg.data_path,
         Event.runC (buildRunCmd cfg cli) (q.runQ.headD false)]) ∧
    (cfg.v = [] →
      traceOf (worker_run cfg cli) q =
        [Event.runC (buildRunCmd cfg cli) (q.runQ.headD false)]) := by
  constructor
  · intro hv
    unfold traceOf worker_run
    rw [bind_trace]
    have hmk : worker_run_mkdir cfg q = (.ok (), q, [Event.makedirs cfg.data_path]) := by
      unfold worker_run_mkdir
      rw [if_pos hv]
      rfl
    rw [hmk]
    dsimp only
    rw [docker_run_spec]
    rfl
  · intro hv
    unfold traceOf worker_run
    rw [bind_trace]
    have hmk : worker_run_mkdir cfg q = (.ok (), q, []) := by
      unfold worker_run_mkdir
      rw [if_neg (by simp [hv])]
      rfl
    rw [hmk]
    dsimp only
    rw [docker_run_spec]
    rfl

/-- Witness for C10: the one-volume spec creates `/d` then runs; the
volume-free spec runs without any directory creation. -/
theorem run_creates_base_data_path_witness :
    traceOf (worker_run exCfgVol exCliStart) exOracleStart =
      [Event.makedirs "/d",
       Event.runC (buildRunCmd exCfgVol exCliStart) true] ∧
    traceOf (worker_run exCfg exCliStart) exOracleStart =
      [Event.runC (buildRunCmd exCfg exCliStart) true] := by
  constructor
  · exact (run_creates_base_data_path exCfgVol exCliStart exOracleStart).1
      (by decide)
  · exact (run_creates_base_data_path exCfg exCliStart exOracleStart).2 rfl

/-- C9 — Run-command assembly.  Part 1: for every spec whose raw
extra-argument separators are the empty string or a single space (the two
encodings named by the spec), the code's command construction equals the
specification-side construction `specRunArgs`, section for section in the
fixed order: detached flag, port publications, bind mounts (host side
`data_path` joined with the subpath), declared env entries then CLI
overrides (appended literally), extra arguments, restart-policy flag, name
flag, image reference last.  Part 2: the end-to-end scenario — spec
`{name: c1, image: repo:tag, data_path: /d}`, action start, empty container
snapshot, image absent locally — produces exactly
pull(repo:tag) → run([-d, --restart=always, --name, c1, repo:tag]) with
success, and the worker reaches its terminal status. -/
theorem run_command_assembly :
    (∀ (cfg : Cfg) (cli : Cli),
      (∀ el ∈ cfg.any, el.2.1 = "" ∨ el.2.1 = " ") →
      buildRunCmd cfg cli = specRunArgs cfg cli) ∧
    (traceOf (runWorker exCfg exCliStart []) exOracleStart =
      [.imagesSha256, .pull "repo:tag" true,
       .runC ["-d", "--restart=always", "--name", "c1", "repo:tag"] true] ∧
     resOf (runWorker exCfg exCliStart []) exOracleStart = .ok ()) := by
  constructor
  · intro cfg cli hany
    have ha : ∀ l : List (String × String × String),
        (∀ el ∈ l, el.2.1 = "" ∨ el.2.1 = " ") →
        (l.map (fun el =>
          if el.2.1 = " " then [el.1, el.2.2]
          else [el.1 ++ el.2.1 ++ el.2.2])).flatten =
        (l.map (fun el =>
          if el.2.1 = "" then [el.1 ++ el.2.2] else [el.1, el.2.2])).flatten := by
      intro l hl
      induction l with
      | nil => rfl
      | cons el rest ih =>
        have hrest := ih fun e he => hl e (List.mem_cons_of_mem el he)
        rcases hl el (List.mem_cons_self el rest) with h | h
        · simp [h, hrest]
        · simp [h, hrest]
    have he : (match cli.e with
        | none => ([] : List String)
        | some l => (l.map (fun env => ["-e", env])).flatten) =
        ((cli.e.getD []).map (fun env => ["-e", env])).flatten := by
      cases cli.e <;> simp
    unfold buildRunCmd specRunArgs
    rw [he]
    simp only [List.flatten_append, List.flatten_cons, List.flatten_nil,
      List.append_nil]
    rw [← ha cfg.any hany]
    simp [List.append_assoc]
  · exact ⟨by decide, rfl⟩

/-- Witness for C9, part 1 at a concrete fully-featured spec: ports,
volumes, env vars, CLI overrides and both extra-argument encodings. -/
theorem run_command_assembly_witness :
    buildRunCmd exCfgFull exCliStartE = specRunArgs exCfgFull exCliStartE ∧
    buildRunCmd exCfgFull exCliStartE =
      ["-d", "-p", "80:8080", "-v", "/d/sub:/c", "-e", "K=V", "-e", "X=1",
       "--log-driver", "json-file", "--cpus=2", "--restart=always",
       "--name", "c1", "repo:tag"] := by
  constructor
  · exact run_command_assembly.1 exCfgFull exCliStartE (by decide)
  · decide

end DockerStarter
